/-
Verification of the footnote normalization and link-rewriting engine of
`download_wp_blog.py`: the Reference Extractor (`extract_existing_footnotes`),
the Link Harvester (`extract_links_and_convert_to_footnotes`), the Reference
Resolver (`create_organized_footnotes_section`), and the corpus URL map /
filename logic (`build_url_to_filename_map`, `clean_title_for_filename`,
the unique-filename loop of `save_post_as_markdown`).

Strings are modelled as `List Char` wherever scanning happens; Python's
`re.sub` with a replacement function is modelled by a left-to-right
non-overlapping scanner (`runScan`) parameterized by a matcher that decides,
at each position, whether the regex matches there and what the replacement
and updated state are.  Each of the six regexes of the source is a
deterministic pattern (every repeated character class excludes its closing
delimiter), so each is embedded as a total structural matcher.
-/
import Mathlib

namespace WPScrape

/-! ## Character classes (mirroring the regex character classes) -/

/-- Python regex `\s` on the ASCII inputs at hand: space, tab, newline,
carriage return, vertical tab, form feed. -/
def pyWhitespace (c : Char) : Bool :=
  c == ' ' || c == '\t' || c == '\n' || c == '\r' || c == '\x0b' || c == '\x0c'

/-- The character class `[^\s\]\)\}\'"<>]` of the bare-URL regex. -/
def urlChar (c : Char) : Bool :=
  !(pyWhitespace c) && c != ']' && c != ')' && c != '}' && c != '\'' &&
    c != '"' && c != '<' && c != '>'

/-- The character class `[ivxlcdm]` with `re.IGNORECASE`. -/
def isRomanChar (c : Char) : Bool :=
  c == 'i' || c == 'v' || c == 'x' || c == 'l' || c == 'c' || c == 'd' || c == 'm' ||
  c == 'I' || c == 'V' || c == 'X' || c == 'L' || c == 'C' || c == 'D' || c == 'M'

/-- Python `str.isdigit()` on ASCII strings: nonempty and all digits. -/
def pyIsDigitStr (l : List Char) : Bool := !l.isEmpty && l.all Char.isDigit

/-! ## Generic left-to-right `re.sub` scanner

`runScan m fuel st cs` walks `cs` from the left.  At each position it asks the
matcher `m` (which also threads the replacement-function state, mirroring the
`nonlocal` counters and dicts of the Python closures) for a match starting
there; on a match it emits the replacement chunk and continues after the
match, otherwise it emits the character and moves one position right —
exactly the semantics of `re.sub` with a callable replacement, given that
none of the embedded regexes can match the empty string.  `fuel` makes the
recursion structural; every matcher consumes at least one character, so
`fuel = cs.length` (as used by `pySub`) always suffices. -/

def runScan (m : σ → List Char → Option (List Char × σ × List Char)) :
    Nat → σ → List Char → List Char × σ
  | 0, st, cs => (cs, st)
  | _ + 1, st, [] => ([], st)
  | fuel + 1, st, c :: cs =>
    match m st (c :: cs) with
    | some (out, st1, rest) =>
      let r := runScan m fuel st1 rest
      (out ++ r.1, r.2)
    | none =>
      let r := runScan m fuel st cs
      (c :: r.1, r.2)

/-- `re.sub(pattern, repl, s)` for a matcher `m` embedding `pattern`/`repl`. -/
def pySub (m : σ → List Char → Option (List Char × σ × List Char))
    (st : σ) (l : List Char) : List Char × σ :=
  runScan m l.length st l

/-- Generic `re.findall` scanner: collect the capture groups of all
non-overlapping matches, left to right. -/
def findAllAux (b : List Char → Option (List Char × List Char)) :
    Nat → List Char → List (List Char)
  | 0, _ => []
  | _ + 1, [] => []
  | fuel + 1, c :: cs =>
    match b (c :: cs) with
    | some (g, rest) => g :: findAllAux b fuel rest
    | none => findAllAux b fuel cs

def pyFindAll (b : List Char → Option (List Char × List Char)) (l : List Char) :
    List (List Char) :=
  findAllAux b l.length l

/-! ## The six regex matchers

Two helpers embed the only two greedy constructions that occur:
`spanStop p stop` is `P+stop` for a character class `P` that excludes `stop`
(so the regex engine's greedy match plus mandatory terminator is just
"maximal run, then the terminator"), and `span1 p` is a bare `P+`. -/

/-- Match a nonempty maximal run of `p`-characters followed by the literal
`stop`; return (run, remainder after `stop`). -/
def spanStop (p : Char → Bool) (stop : Char) (l : List Char) :
    Option (List Char × List Char) :=
  let a := l.takeWhile p
  if a.isEmpty then none else
  match l.dropWhile p with
  | b :: rest => if b = stop then some (a, rest) else none
  | [] => none

/-- Match a nonempty maximal run of `p`-characters; return (run, remainder). -/
def span1 (p : Char → Bool) (l : List Char) : Option (List Char × List Char) :=
  let a := l.takeWhile p
  if a.isEmpty then none else some (a, l.dropWhile p)

/-- `\[\[(\d+)\]\]\(([^)]+)\)` (WordPress bracket footnotes): on success
returns (label digits, url, rest after the match). -/
def matchWP : List Char → Option (List Char × List Char × List Char)
  | c1 :: c2 :: cs =>
    if c1 = '[' ∧ c2 = '[' then
      match spanStop Char.isDigit ']' cs with
      | some (d, rest1) =>
        match rest1 with
        | b2 :: b3 :: cs2 =>
          if b2 = ']' ∧ b3 = '(' then
            match spanStop (· != ')') ')' cs2 with
            | some (u, rest) => some (d, u, rest)
            | none => none
          else none
        | _ => none
      | none => none
    else none
  | _ => none

/-- `\[\^([^\]]+)\]` (standard footnote markers, used with `re.findall`):
returns (inner token, rest after the match). -/
def matchStdRef : List Char → Option (List Char × List Char)
  | c1 :: c2 :: cs =>
    if c1 = '[' ∧ c2 = '^' then spanStop (· != ']') ']' cs else none
  | _ => none

/-- `\((\d+)\)` (parenthesized decimal references). -/
def matchParenNum : List Char → Option (List Char × List Char)
  | c :: cs => if c = '(' then spanStop Char.isDigit ')' cs else none
  | [] => none

/-- `\(([ivxlcdm]+)\)` with `re.IGNORECASE` (parenthesized roman numerals).
The capture group keeps its original case, exactly as `match.group(1)` does. -/
def matchParenRoman : List Char → Option (List Char × List Char)
  | c :: cs => if c = '(' then spanStop isRomanChar ')' cs else none
  | [] => none

/-- `\[([^\]]+)\]\(([^)]+)\)` (inline markdown links): on success returns
(link text, url, rest). -/
def matchLink : List Char → Option (List Char × List Char × List Char)
  | c :: cs =>
    if c = '[' then
      match spanStop (· != ']') ']' cs with
      | some (t, rest1) =>
        match rest1 with
        | b :: cs2 =>
          if b = '(' then
            match spanStop (· != ')') ')' cs2 with
            | some (u, rest) => some (t, u, rest)
            | none => none
          else none
        | [] => none
      | none => none
    else none
  | [] => none

/-- `https?://[^\s\]\)\}\'"<>]+` (standalone URLs): returns
(whole matched URL, rest).  After the literal `http`, an `s` commits to
requiring `://` (no backtracking is possible since `s` cannot match `:`),
otherwise `://` itself is required. -/
def matchUrl : List Char → Option (List Char × List Char)
  | c1 :: c2 :: c3 :: c4 :: cs =>
    if c1 = 'h' ∧ c2 = 't' ∧ c3 = 't' ∧ c4 = 'p' then
      match cs with
      | c5 :: cs1 =>
        if c5 = 's' then
          match cs1 with
          | c6 :: c7 :: c8 :: cs2 =>
            if c6 = ':' ∧ c7 = '/' ∧ c8 = '/' then
              match span1 urlChar cs2 with
              | some (u, rest) =>
                some ('h' :: 't' :: 't' :: 'p' :: 's' :: ':' :: '/' :: '/' :: u, rest)
              | none => none
            else none
          | _ => none
        else if c5 = ':' then
          match cs1 with
          | c6 :: c7 :: cs2 =>
            if c6 = '/' ∧ c7 = '/' then
              match span1 urlChar cs2 with
              | some (u, rest) =>
                some ('h' :: 't' :: 't' :: 'p' :: ':' :: '/' :: '/' :: u, rest)
              | none => none
            else none
          | _ => none
        else none
      | [] => none
    else none
  | _ => none

/-! ## Reference Extractor (`extract_existing_footnotes`) -/

/-- The state threaded through `extract_existing_footnotes`:
`footnote_refs` (insertion-ordered dict from reference key to assigned
number), `footnote_counter`, and `footnote_definitions` (assigned number to
URL, only ever populated by the WordPress pass). -/
structure ESt where
  refs : List (String × Nat)
  counter : Nat
  defs : List (Nat × String)
deriving DecidableEq, Repr

/-- Ordered-dict lookup (keys are unique by construction). -/
def lookupN : List (String × Nat) → String → Option Nat
  | [], _ => none
  | (k, v) :: rest, key => if k = key then some v else lookupN rest key

/-- The rendered footnote reference `f"[^{n}]"`. -/
def fnref (n : Nat) : List Char := '[' :: '^' :: (Nat.repr n).data ++ [']']

/-- Replacement callback `extract_wp_footnotes` of pass 1. -/
def wpMatcher (st : ESt) (cs : List Char) : Option (List Char × ESt × List Char) :=
  match matchWP cs with
  | none => none
  | some (d, u, rest) =>
    let key := String.mk d
    match lookupN st.refs key with
    | some n => some (fnref n, st, rest)
    | none =>
      let n := st.counter + 1
      some (fnref n,
        { refs := st.refs ++ [(key, n)], counter := n,
          defs := st.defs ++ [(n, String.mk u)] }, rest)

/-- The pass-2 loop body: `if ref not in footnote_refs and not ref.isdigit():
assign a fresh number` (the marker text itself is never rewritten). -/
def addStdRef (st : ESt) (g : List Char) : ESt :=
  if (lookupN st.refs (String.mk g)).isNone && !pyIsDigitStr g then
    { st with refs := st.refs ++ [(String.mk g, st.counter + 1)],
              counter := st.counter + 1 }
  else st

/-- Replacement callback `extract_paren_nums` of pass 3 (key `paren_{num}`,
no target recorded). -/
def parenNumMatcher (st : ESt) (cs : List Char) :
    Option (List Char × ESt × List Char) :=
  match matchParenNum cs with
  | none => none
  | some (d, rest) =>
    let key := String.mk ('p' :: 'a' :: 'r' :: 'e' :: 'n' :: '_' :: d)
    match lookupN st.refs key with
    | some n => some (fnref n, st, rest)
    | none =>
      let n := st.counter + 1
      some (fnref n,
        { st with refs := st.refs ++ [(key, n)], counter := n }, rest)

/-- Replacement callback `extract_paren_roman` of pass 4 (key `roman_{roman}`
with the group in its original case, no target recorded). -/
def parenRomanMatcher (st : ESt) (cs : List Char) :
    Option (List Char × ESt × List Char) :=
  match matchParenRoman cs with
  | none => none
  | some (r, rest) =>
    let key := String.mk ('r' :: 'o' :: 'm' :: 'a' :: 'n' :: '_' :: r)
    match lookupN st.refs key with
    | some n => some (fnref n, st, rest)
    | none =>
      let n := st.counter + 1
      some (fnref n,
        { st with refs := st.refs ++ [(key, n)], counter := n }, rest)

/-- `extract_existing_footnotes(content_md)`: the four passes in order,
returning (cleaned text, footnote_refs, footnote_definitions). -/
def extract_existing_footnotes (content_md : String) :
    String × List (String × Nat) × List (Nat × String) :=
  let st0 : ESt := ⟨[], 0, []⟩
  let r1 := pySub wpMatcher st0 content_md.data
  let found := pyFindAll matchStdRef r1.1
  let st2 := found.foldl addStdRef r1.2
  let r3 := pySub parenNumMatcher st2 r1.1
  let r4 := pySub parenRomanMatcher r3.2 r3.1
  (String.mk r4.1, r4.2.refs, r4.2.defs)

/-! ## Link Harvester (`extract_links_and_convert_to_footnotes`) -/

/-- The harvester state: `footnote_counter` (started at
`existing_footnote_count`) and its own `footnote_definitions`. -/
structure HSt where
  counter : Nat
  defs : List (Nat × String)
deriving DecidableEq, Repr

/-- Replacement callback `replace_markdown_links`: skip when the link text
starts with a caret or the URL starts with the literal word `Link` (both
guards return `match.group(0)` unchanged); otherwise assign a fresh number
and rewrite to `f"{text}[^{n}]"`. -/
def linkMatcher (st : HSt) (cs : List Char) :
    Option (List Char × HSt × List Char) :=
  match matchLink cs with
  | none => none
  | some (t, u, rest) =>
    if t.head? = some '^' then
      some ('[' :: t ++ ']' :: '(' :: u ++ [')'], st, rest)
    else if ['L', 'i', 'n', 'k'].isPrefixOf u then
      some ('[' :: t ++ ']' :: '(' :: u ++ [')'], st, rest)
    else
      let n := st.counter + 1
      some (t ++ fnref n, ⟨n, st.defs ++ [(n, String.mk u)]⟩, rest)

/-- Replacement callback `replace_plain_urls`: every bare URL gets a fresh
number and becomes `f"[Link][^{n}]"`. -/
def urlMatcher (st : HSt) (cs : List Char) :
    Option (List Char × HSt × List Char) :=
  match matchUrl cs with
  | none => none
  | some (url, rest) =>
    let n := st.counter + 1
    some ('[' :: 'L' :: 'i' :: 'n' :: 'k' :: ']' :: fnref n,
      ⟨n, st.defs ++ [(n, String.mk url)]⟩, rest)

/-- `extract_links_and_convert_to_footnotes(content_md,
existing_footnote_count)`: inline links first, then bare URLs. -/
def extract_links_and_convert_to_footnotes (content_md : String)
    (existing_footnote_count : Nat) : String × List (Nat × String) :=
  let r1 := pySub linkMatcher ⟨existing_footnote_count, []⟩ content_md.data
  let r2 := pySub urlMatcher r1.2 r1.1
  (String.mk r2.1, r2.2.defs)

/-! ## Reference Resolver (`create_organized_footnotes_section`) -/

/-- The academic/educational allow-list of the source, verbatim. -/
def academic_domains : List String :=
  ["bible", "scholar", "jstor", "academia", "researchgate", "pubmed",
   "nd.edu", "yale.edu", "harvard.edu", "cambridge.org", "oxford"]

/-- Python `needle in hay` substring test. -/
def containsSub (needle : List Char) : List Char → Bool
  | [] => needle.isEmpty
  | c :: t => needle.isPrefixOf (c :: t) || containsSub needle t

def pyLower (l : List Char) : List Char := l.map Char.toLower

/-- Python `url.rstrip('/')`. -/
def pyRstripSlash (s : String) : String :=
  String.mk ((s.data.reverse.dropWhile (· == '/')).reverse)

/-- `any(domain in url.lower() for domain in [...])`. -/
def isAcademic (url : String) : Bool :=
  academic_domains.any (fun d => containsSub d.data (pyLower url.data))

def lookupS : List (String × String) → String → Option String
  | [], _ => none
  | (k, v) :: rest, key => if k = key then some v else lookupS rest key

/-- Python dict assignment `m[k] = v` (replace in place or append). -/
def dictInsertN (m : List (Nat × String)) (k : Nat) (v : String) :
    List (Nat × String) :=
  if m.any (fun p => p.1 == k) then
    m.map (fun p => if p.1 == k then (k, v) else p)
  else m ++ [(k, v)]

/-- Python `dict.update`: insert every pair of `adds`, later keys winning. -/
def dictUpdateN (m adds : List (Nat × String)) : List (Nat × String) :=
  adds.foldl (fun acc p => dictInsertN acc p.1 p.2) m

/-- Insertion sort by footnote number, modelling `sorted(all_footnotes.items())`
(keys are unique, so stability is irrelevant). -/
def insertByKey (x : Nat × String) : List (Nat × String) → List (Nat × String)
  | [] => [x]
  | y :: ys => if x.1 ≤ y.1 then x :: y :: ys else y :: insertByKey x ys

def sortByKey : List (Nat × String) → List (Nat × String)
  | [] => []
  | x :: xs => insertByKey x (sortByKey xs)

/-- Python `"\n".join(lines)`. -/
def joinNL : List String → String
  | [] => ""
  | [s] => s
  | s :: s2 :: rest => s ++ "\n" ++ joinNL (s2 :: rest)

/-- The categorization loop body of `create_organized_footnotes_section`,
appending each entry's rendered line to the internal / academic / external
bucket in order. -/
def categorizeAll (url_to_filename : List (String × String))
    (entries : List (Nat × String)) : List String × List String × List String :=
  entries.foldl
    (fun acc p =>
      let n := p.1
      let url := p.2
      let clean_url := pyRstripSlash url
      match lookupS url_to_filename clean_url with
      | some filename =>
        (acc.1 ++ ["[^" ++ Nat.repr n ++ "]: [[" ++ filename ++ "]]"],
          acc.2.1, acc.2.2)
      | none =>
        if isAcademic url then
          (acc.1, acc.2.1 ++ ["[^" ++ Nat.repr n ++ "]: " ++ url], acc.2.2)
        else
          (acc.1, acc.2.1, acc.2.2 ++ ["[^" ++ Nat.repr n ++ "]: " ++ url]))
    ([], [], [])

/-- `create_organized_footnotes_section(existing_footnote_defs,
link_footnote_defs, url_to_filename)`. -/
def create_organized_footnotes_section
    (existing_footnote_defs link_footnote_defs : List (Nat × String))
    (url_to_filename : List (String × String)) : String :=
  if existing_footnote_defs.isEmpty && link_footnote_defs.isEmpty then ""
  else
    let all_footnotes := dictUpdateN (dictUpdateN [] existing_footnote_defs)
      link_footnote_defs
    if all_footnotes.isEmpty then ""
    else
      let sorted := sortByKey all_footnotes
      let cat := categorizeAll url_to_filename sorted
      let lines := ["\n## References\n"]
        ++ (if cat.1.isEmpty then [] else
              ["### Related Articles"] ++ cat.1 ++ [""])
        ++ (if cat.2.1.isEmpty then [] else
              ["### Academic Sources"] ++ cat.2.1 ++ [""])
        ++ (if cat.2.2.isEmpty then [] else
              ["### External Links"] ++ cat.2.2)
      joinNL lines

/-! ## The per-post pipeline of `save_post_as_markdown` (lines 336-347)

The harvester is started at `len(existing_footnote_defs)` — the count of
footnote definitions (WordPress pass only), not the extractor's counter. -/

def process_post_content (content : String)
    (url_to_filename : List (String × String)) : String × String :=
  let e := extract_existing_footnotes content
  let existing_footnote_count := e.2.2.length
  let l := extract_links_and_convert_to_footnotes e.1 existing_footnote_count
  (l.1, create_organized_footnotes_section e.2.2 l.2 url_to_filename)

/-! ## Corpus URL map and filenames -/

/-- A fetched post, restricted to the fields the claims need. -/
structure Post where
  URL : String
  title : String

/-- Model of Python's `html.unescape` restricted to the five predefined XML
entities (`&amp; &lt; &gt; &quot; &#39;`), on which the stdlib function acts
exactly like this; titles in this development contain no other entities. -/
def html_unescape : List Char → List Char
  | '&' :: 'a' :: 'm' :: 'p' :: ';' :: rest => '&' :: html_unescape rest
  | '&' :: 'l' :: 't' :: ';' :: rest => '<' :: html_unescape rest
  | '&' :: 'g' :: 't' :: ';' :: rest => '>' :: html_unescape rest
  | '&' :: 'q' :: 'u' :: 'o' :: 't' :: ';' :: rest => '"' :: html_unescape rest
  | '&' :: '#' :: '3' :: '9' :: ';' :: rest => '\'' :: html_unescape rest
  | c :: rest => c :: html_unescape rest
  | [] => []

/-- The character class `[\*\\"\/<>\:\|\?]` removed by
`clean_title_for_filename`. -/
def forbiddenChar (c : Char) : Bool :=
  c == '*' || c == '\\' || c == '"' || c == '/' || c == '<' || c == '>' ||
  c == ':' || c == '|' || c == '?'

/-- Python `str.strip(chars)`. -/
def pyStrip (p : Char → Bool) (l : List Char) : List Char :=
  ((l.dropWhile p).reverse.dropWhile p).reverse

/-- `re.sub(r'\s+', ' ', s)`: each maximal whitespace run becomes one space.
The flag records whether the previous character was inside a run. -/
def collapseWsAux : Bool → List Char → List Char
  | _, [] => []
  | inRun, c :: cs =>
    if pyWhitespace c then
      if inRun then collapseWsAux true cs else ' ' :: collapseWsAux true cs
    else c :: collapseWsAux false cs

def collapseWs (l : List Char) : List Char := collapseWsAux false l

/-- `clean_title_for_filename(title)`. -/
def clean_title_for_filename (title : String) : String :=
  let t1 := html_unescape title.data
  let t2 := t1.filter (fun c => !forbiddenChar c)
  let t3 := pyStrip (fun c => c == ' ' || c == '.') t2
  let t4 := collapseWs t3
  if t4.isEmpty then "untitled" else String.mk t4

/-- Python dict assignment for the corpus URL map. -/
def dictInsertS (m : List (String × String)) (k v : String) :
    List (String × String) :=
  if m.any (fun p => p.1 == k) then
    m.map (fun p => if p.1 == k then (k, v) else p)
  else m ++ [(k, v)]

/-- `build_url_to_filename_map(posts)`: sanitized title per rstripped URL,
with no collision disambiguation. -/
def build_url_to_filename_map (posts : List Post) : List (String × String) :=
  posts.foldl
    (fun m post =>
      dictInsertS m (pyRstripSlash post.URL) (clean_title_for_filename post.title))
    []

/-- Python `x in xs` for the `existing_filenames` set. -/
def strElem (x : String) : List String → Bool
  | [] => false
  | y :: ys => x == y || strElem x ys

/-- The unique-filename loop of `save_post_as_markdown`:
`filename = f"{title}.md"` then `while filename in existing_filenames:
filename = f"{base} ({counter}).md"; counter += 1`.  The fuel
`existing.length + 1` suffices because the candidates tried are pairwise
distinct. -/
def uniqueFilenameLoop (existing : List String) (base : String) :
    Nat → Nat → String
  | counter, 0 => base ++ " (" ++ Nat.repr counter ++ ").md"
  | counter, fuel + 1 =>
    let cand := base ++ " (" ++ Nat.repr counter ++ ").md"
    if strElem cand existing then uniqueFilenameLoop existing base (counter + 1) fuel
    else cand

def gen_unique_filename (existing : List String) (filename_title : String) : String :=
  let first := filename_title ++ ".md"
  if strElem first existing then
    uniqueFilenameLoop existing filename_title 1 (existing.length + 1)
  else first

/-! ## Decidable "no reference markers, links or URLs anywhere" predicate -/

/-- True iff none of the six regexes matches at any position of `l`. -/
def noMatchesB : List Char → Bool
  | [] => true
  | c :: cs =>
    (matchWP (c :: cs)).isNone && (matchStdRef (c :: cs)).isNone &&
    (matchParenNum (c :: cs)).isNone && (matchParenRoman (c :: cs)).isNone &&
    (matchLink (c :: cs)).isNone && (matchUrl (c :: cs)).isNone &&
    noMatchesB cs

/-! ## Proof-layer relations

`Scans` is the fuel-free big-step version of `runScan`: a derivation records
one full left-to-right scan.  `runScan_of_scans` below transports it to the
fuelled executable scanner, so parametric inputs never need fuel arithmetic. -/

/-- Every matcher consumes at least one character when it fires. -/
def MConsumes (m : σ → List Char → Option (List Char × σ × List Char)) : Prop :=
  ∀ st cs out st1 rest, m st cs = some (out, st1, rest) → rest.length < cs.length

/-- Same, for the state-free matchers used with `re.findall`. -/
def BConsumes (b : List Char → Option (List Char × List Char)) : Prop :=
  ∀ cs g rest, b cs = some (g, rest) → rest.length < cs.length

/-- Big-step scan relation: `Scans m st cs out st1` holds when one
left-to-right `re.sub` pass over `cs` starting in state `st` emits `out` and
ends in state `st1`. -/
inductive Scans (m : σ → List Char → Option (List Char × σ × List Char)) :
    σ → List Char → List Char → σ → Prop
  | nil : ∀ {st}, Scans m st [] [] st
  | stepNone : ∀ {st c cs out st1}, m st (c :: cs) = none →
      Scans m st cs out st1 → Scans m st (c :: cs) (c :: out) st1
  | stepSome : ∀ {st c cs o stm rest out st1},
      m st (c :: cs) = some (o, stm, rest) →
      Scans m stm rest out st1 → Scans m st (c :: cs) (o ++ out) st1

/-- Big-step `re.findall` relation. -/
inductive Finds (b : List Char → Option (List Char × List Char)) :
    List Char → List (List Char) → Prop
  | nil : Finds b [] []
  | stepNone : ∀ {c cs gs}, b (c :: cs) = none → Finds b cs gs →
      Finds b (c :: cs) gs
  | stepSome : ∀ {c cs g rest gs}, b (c :: cs) = some (g, rest) →
      Finds b rest gs → Finds b (c :: cs) (g :: gs)

/-- True iff the (state-free) base matcher `b` matches at no position of `l`. -/
def allNoneB (b : List Char → Option α) : List Char → Bool
  | [] => true
  | c :: cs => (b (c :: cs)).isNone && allNoneB b cs

end WPScrape

namespace WPScrape

/-! # Proof layer -/

/-! ## Generic list and span lemmas -/

theorem strMk_data (s : String) : String.mk s.data = s := rfl

theorem dropWhile_append_all (p : Char → Bool) :
    ∀ (l1 l2 : List Char), (∀ c ∈ l1, p c = true) →
      (l1 ++ l2).dropWhile p = l2.dropWhile p := by
  intro l1
  induction l1 with
  | nil => intro l2 _; rfl
  | cons c cs ih =>
    intro l2 h
    rw [List.cons_append, List.dropWhile_cons, if_pos (h c (by simp))]
    exact ih l2 (fun x hx => h x (by simp [hx]))

theorem spanStop_some {p : Char → Bool} {stop : Char} {l a rest : List Char}
    (h : spanStop p stop l = some (a, rest)) :
    l = a ++ stop :: rest ∧ (∀ c ∈ a, p c = true) ∧ a ≠ [] := by
  simp only [spanStop] at h
  split_ifs at h with he
  split at h
  · rename_i b rest1 heq
    split_ifs at h with hb
    simp only [Option.some.injEq, Prod.mk.injEq] at h
    obtain ⟨rfl, rfl⟩ := h
    subst hb
    refine ⟨?_, fun c hc => List.mem_takeWhile_imp hc, by simpa using he⟩
    conv_lhs => rw [← List.takeWhile_append_dropWhile (p := p) (l := l)]
    rw [heq]
  · simp at h

theorem spanStop_length {p : Char → Bool} {stop : Char} {l a rest : List Char}
    (h : spanStop p stop l = some (a, rest)) : rest.length < l.length := by
  obtain ⟨hl, -, -⟩ := spanStop_some h
  subst hl
  simp [List.length_append]
  omega

theorem spanStop_eval {p : Char → Bool} {z : Char} (a rest : List Char)
    (ha : ∀ c ∈ a, p c = true) (hne : a ≠ []) (hstop : p z = false) :
    spanStop p z (a ++ z :: rest) = some (a, rest) := by
  have ht : (a ++ z :: rest).takeWhile p = a := by
    rw [List.takeWhile_append_of_pos ha, List.takeWhile_cons, hstop]
    simp
  have hd : (a ++ z :: rest).dropWhile p = z :: rest := by
    rw [dropWhile_append_all p a _ ha, List.dropWhile_cons, hstop]
    simp
  simp only [spanStop, ht, hd]
  rw [if_neg (by simpa using hne)]
  simp

theorem spanStop_none_head {p : Char → Bool} {stop c : Char} {cs : List Char}
    (h : p c = false) : spanStop p stop (c :: cs) = none := by
  simp [spanStop, List.takeWhile_cons, h]

theorem spanStop_none_nil {p : Char → Bool} {stop : Char} :
    spanStop p stop [] = none := rfl

theorem span1_some {p : Char → Bool} {l a rest : List Char}
    (h : span1 p l = some (a, rest)) : l = a ++ rest ∧ a ≠ [] := by
  simp only [span1] at h
  split_ifs at h with he
  simp only [Option.some.injEq, Prod.mk.injEq] at h
  obtain ⟨rfl, rfl⟩ := h
  refine ⟨?_, by simpa using he⟩
  rw [List.takeWhile_append_dropWhile]

theorem span1_length {p : Char → Bool} {l a rest : List Char}
    (h : span1 p l = some (a, rest)) : rest.length < l.length := by
  obtain ⟨hl, hne⟩ := span1_some h
  subst hl
  cases a with
  | nil => exact absurd rfl hne
  | cons x xs => simp [List.length_append]; omega

/-! ## Matcher evaluation and none-lemmas for the state wrappers -/

theorem wpMatcher_none {s : ESt} {cs : List Char} (hm : matchWP cs = none) :
    wpMatcher s cs = none := by
  simp [wpMatcher, hm]

theorem wpMatcher_hit {cs d u r : List Char} {s : ESt} {n : Nat}
    (hm : matchWP cs = some (d, u, r))
    (hl : lookupN s.refs (String.mk d) = some n) :
    wpMatcher s cs = some (fnref n, s, r) := by
  simp [wpMatcher, hm, hl]

theorem wpMatcher_new {cs d u r : List Char} {s : ESt}
    (hm : matchWP cs = some (d, u, r))
    (hl : lookupN s.refs (String.mk d) = none) :
    wpMatcher s cs = some (fnref (s.counter + 1),
      ⟨s.refs ++ [(String.mk d, s.counter + 1)], s.counter + 1,
       s.defs ++ [(s.counter + 1, String.mk u)]⟩, r) := by
  simp [wpMatcher, hm, hl]

theorem parenNumMatcher_none {s : ESt} {cs : List Char}
    (hm : matchParenNum cs = none) : parenNumMatcher s cs = none := by
  simp [parenNumMatcher, hm]

theorem parenNumMatcher_hit {cs d r : List Char} {s : ESt} {n : Nat}
    (hm : matchParenNum cs = some (d, r))
    (hl : lookupN s.refs (String.mk ('p' :: 'a' :: 'r' :: 'e' :: 'n' :: '_' :: d)) = some n) :
    parenNumMatcher s cs = some (fnref n, s, r) := by
  simp [parenNumMatcher, hm, hl]

theorem parenNumMatcher_new {cs d r : List Char} {s : ESt}
    (hm : matchParenNum cs = some (d, r))
    (hl : lookupN s.refs (String.mk ('p' :: 'a' :: 'r' :: 'e' :: 'n' :: '_' :: d)) = none) :
    parenNumMatcher s cs = some (fnref (s.counter + 1),
      ⟨s.refs ++ [(String.mk ('p' :: 'a' :: 'r' :: 'e' :: 'n' :: '_' :: d), s.counter + 1)],
       s.counter + 1, s.defs⟩, r) := by
  simp [parenNumMatcher, hm, hl]

theorem parenRomanMatcher_none {s : ESt} {cs : List Char}
    (hm : matchParenRoman cs = none) : parenRomanMatcher s cs = none := by
  simp [parenRomanMatcher, hm]

theorem parenRomanMatcher_hit {cs g r : List Char} {s : ESt} {n : Nat}
    (hm : matchParenRoman cs = some (g, r))
    (hl : lookupN s.refs (String.mk ('r' :: 'o' :: 'm' :: 'a' :: 'n' :: '_' :: g)) = some n) :
    parenRomanMatcher s cs = some (fnref n, s, r) := by
  simp [parenRomanMatcher, hm, hl]

theorem parenRomanMatcher_new {cs g r : List Char} {s : ESt}
    (hm : matchParenRoman cs = some (g, r))
    (hl : lookupN s.refs (String.mk ('r' :: 'o' :: 'm' :: 'a' :: 'n' :: '_' :: g)) = none) :
    parenRomanMatcher s cs = some (fnref (s.counter + 1),
      ⟨s.refs ++ [(String.mk ('r' :: 'o' :: 'm' :: 'a' :: 'n' :: '_' :: g), s.counter + 1)],
       s.counter + 1, s.defs⟩, r) := by
  simp [parenRomanMatcher, hm, hl]

theorem linkMatcher_none {s : HSt} {cs : List Char}
    (hm : matchLink cs = none) : linkMatcher s cs = none := by
  simp [linkMatcher, hm]

theorem linkMatcher_caret {cs t u r : List Char} {s : HSt}
    (hm : matchLink cs = some (t, u, r)) (ht : t.head? = some '^') :
    linkMatcher s cs = some ('[' :: t ++ ']' :: '(' :: u ++ [')'], s, r) := by
  simp [linkMatcher, hm, ht]

theorem linkMatcher_linkguard {cs t u r : List Char} {s : HSt}
    (hm : matchLink cs = some (t, u, r)) (ht : ¬ t.head? = some '^')
    (hu : ['L', 'i', 'n', 'k'].isPrefixOf u = true) :
    linkMatcher s cs = some ('[' :: t ++ ']' :: '(' :: u ++ [')'], s, r) := by
  simp [linkMatcher, hm, ht, hu]

theorem linkMatcher_conv {cs t u r : List Char} {s : HSt}
    (hm : matchLink cs = some (t, u, r)) (ht : ¬ t.head? = some '^')
    (hu : ['L', 'i', 'n', 'k'].isPrefixOf u = false) :
    linkMatcher s cs = some (t ++ fnref (s.counter + 1),
      ⟨s.counter + 1, s.defs ++ [(s.counter + 1, String.mk u)]⟩, r) := by
  simp [linkMatcher, hm, ht, hu]

theorem urlMatcher_none {s : HSt} {cs : List Char}
    (hm : matchUrl cs = none) : urlMatcher s cs = none := by
  simp [urlMatcher, hm]

theorem urlMatcher_some {cs u r : List Char} {s : HSt}
    (hm : matchUrl cs = some (u, r)) :
    urlMatcher s cs = some ('[' :: 'L' :: 'i' :: 'n' :: 'k' :: ']' :: fnref (s.counter + 1),
      ⟨s.counter + 1, s.defs ++ [(s.counter + 1, String.mk u)]⟩, r) := by
  simp [urlMatcher, hm]

/-! ## Matcher consumption lemmas -/

theorem matchWP_consumes {cs d u rest : List Char}
    (h : matchWP cs = some (d, u, rest)) : rest.length < cs.length := by
  match cs with
  | [] => simp [matchWP] at h
  | [c] => simp [matchWP] at h
  | c1 :: c2 :: cs =>
    simp only [matchWP] at h
    split_ifs at h with h12
    cases hs1 : spanStop Char.isDigit ']' cs with
    | none => rw [hs1] at h; simp at h
    | some pr1 =>
      obtain ⟨d1, rest1⟩ := pr1
      rw [hs1] at h
      match rest1, hs1, h with
      | [], hs1, h => simp at h
      | [b2], hs1, h => simp at h
      | b2 :: b3 :: cs2, hs1, h =>
        simp only at h
        split_ifs at h with hb
        cases hs2 : spanStop (· != ')') ')' cs2 with
        | none => rw [hs2] at h; simp at h
        | some pr2 =>
          obtain ⟨u1, rest2⟩ := pr2
          rw [hs2] at h
          simp only [Option.some.injEq, Prod.mk.injEq] at h
          obtain ⟨-, -, h3⟩ := h
          subst h3
          have l1 := spanStop_length hs1
          have l2 := spanStop_length hs2
          simp only [List.length_cons] at *
          omega

theorem matchStdRef_consumes {cs g rest : List Char}
    (h : matchStdRef cs = some (g, rest)) : rest.length < cs.length := by
  match cs with
  | [] => simp [matchStdRef] at h
  | [c] => simp [matchStdRef] at h
  | c1 :: c2 :: cs =>
    simp only [matchStdRef] at h
    split_ifs at h with h12
    have := spanStop_length h
    simp only [List.length_cons]
    omega

theorem matchParenNum_consumes {cs g rest : List Char}
    (h : matchParenNum cs = some (g, rest)) : rest.length < cs.length := by
  match cs with
  | [] => simp [matchParenNum] at h
  | c :: cs =>
    simp only [matchParenNum] at h
    split_ifs at h with hc
    have := spanStop_length h
    simp only [List.length_cons]
    omega

theorem matchParenRoman_consumes {cs g rest : List Char}
    (h : matchParenRoman cs = some (g, rest)) : rest.length < cs.length := by
  match cs with
  | [] => simp [matchParenRoman] at h
  | c :: cs =>
    simp only [matchParenRoman] at h
    split_ifs at h with hc
    have := spanStop_length h
    simp only [List.length_cons]
    omega

theorem matchLink_consumes {cs t u rest : List Char}
    (h : matchLink cs = some (t, u, rest)) : rest.length < cs.length := by
  match cs with
  | [] => simp [matchLink] at h
  | c :: cs =>
    simp only [matchLink] at h
    split_ifs at h with hc
    cases hs1 : spanStop (· != ']') ']' cs with
    | none => rw [hs1] at h; simp at h
    | some pr1 =>
      obtain ⟨t1, rest1⟩ := pr1
      rw [hs1] at h
      match rest1, hs1, h with
      | [], hs1, h => simp at h
      | b :: cs2, hs1, h =>
        simp only at h
        split_ifs at h with hb
        cases hs2 : spanStop (· != ')') ')' cs2 with
        | none => rw [hs2] at h; simp at h
        | some pr2 =>
          obtain ⟨u1, rest2⟩ := pr2
          rw [hs2] at h
          simp only [Option.some.injEq, Prod.mk.injEq] at h
          obtain ⟨-, -, h3⟩ := h
          subst h3
          have l1 := spanStop_length hs1
          have l2 := spanStop_length hs2
          simp only [List.length_cons] at *
          omega

theorem matchUrl_consumes {cs u rest : List Char}
    (h : matchUrl cs = some (u, rest)) : rest.length < cs.length := by
  match cs with
  | [] => simp [matchUrl] at h
  | [_] => simp [matchUrl] at h
  | [_, _] => simp [matchUrl] at h
  | [_, _, _] => simp [matchUrl] at h
  | c1 :: c2 :: c3 :: c4 :: cs =>
    simp only [matchUrl] at h
    split_ifs at h with h1
    match cs, h with
    | [], h => simp at h
    | c5 :: cs1, h =>
      simp only at h
      by_cases h5 : c5 = 's'
      · rw [if_pos h5] at h
        match cs1, h with
        | [], h => simp at h
        | [_], h => simp at h
        | [_, _], h => simp at h
        | c6 :: c7 :: c8 :: cs2, h =>
          simp only at h
          split_ifs at h with h6
          cases hs : span1 urlChar cs2 with
          | none => rw [hs] at h; simp at h
          | some pr =>
            obtain ⟨u1, r1⟩ := pr
            rw [hs] at h
            simp only [Option.some.injEq, Prod.mk.injEq] at h
            obtain ⟨-, h2⟩ := h
            subst h2
            have := span1_length hs
            simp only [List.length_cons] at *
            omega
      · rw [if_neg h5] at h
        by_cases h5b : c5 = ':'
        · rw [if_pos h5b] at h
          match cs1, h with
          | [], h => simp at h
          | [_], h => simp at h
          | c6 :: c7 :: cs2, h =>
            simp only at h
            split_ifs at h with h6
            cases hs : span1 urlChar cs2 with
            | none => rw [hs] at h; simp at h
            | some pr =>
              obtain ⟨u1, r1⟩ := pr
              rw [hs] at h
              simp only [Option.some.injEq, Prod.mk.injEq] at h
              obtain ⟨-, h2⟩ := h
              subst h2
              have := span1_length hs
              simp only [List.length_cons] at *
              omega
        · rw [if_neg h5b] at h; simp at h

theorem wpMatcher_consumes : MConsumes wpMatcher := by
  intro st cs out st1 rest h
  cases hm : matchWP cs with
  | none => rw [wpMatcher_none hm] at h; simp at h
  | some tr =>
    obtain ⟨d, u, r⟩ := tr
    cases hl : lookupN st.refs (String.mk d) with
    | some n =>
      rw [wpMatcher_hit hm hl] at h
      simp only [Option.some.injEq, Prod.mk.injEq] at h
      obtain ⟨-, -, h3⟩ := h
      exact h3 ▸ matchWP_consumes hm
    | none =>
      rw [wpMatcher_new hm hl] at h
      simp only [Option.some.injEq, Prod.mk.injEq] at h
      obtain ⟨-, -, h3⟩ := h
      exact h3 ▸ matchWP_consumes hm

theorem parenNumMatcher_consumes : MConsumes parenNumMatcher := by
  intro st cs out st1 rest h
  cases hm : matchParenNum cs with
  | none => rw [parenNumMatcher_none hm] at h; simp at h
  | some pr =>
    obtain ⟨d, r⟩ := pr
    cases hl : lookupN st.refs (String.mk ('p' :: 'a' :: 'r' :: 'e' :: 'n' :: '_' :: d)) with
    | some n =>
      rw [parenNumMatcher_hit hm hl] at h
      simp only [Option.some.injEq, Prod.mk.injEq] at h
      obtain ⟨-, -, h3⟩ := h
      exact h3 ▸ matchParenNum_consumes hm
    | none =>
      rw [parenNumMatcher_new hm hl] at h
      simp only [Option.some.injEq, Prod.mk.injEq] at h
      obtain ⟨-, -, h3⟩ := h
      exact h3 ▸ matchParenNum_consumes hm

theorem parenRomanMatcher_consumes : MConsumes parenRomanMatcher := by
  intro st cs out st1 rest h
  cases hm : matchParenRoman cs with
  | none => rw [parenRomanMatcher_none hm] at h; simp at h
  | some pr =>
    obtain ⟨g, r⟩ := pr
    cases hl : lookupN st.refs (String.mk ('r' :: 'o' :: 'm' :: 'a' :: 'n' :: '_' :: g)) with
    | some n =>
      rw [parenRomanMatcher_hit hm hl] at h
      simp only [Option.some.injEq, Prod.mk.injEq] at h
      obtain ⟨-, -, h3⟩ := h
      exact h3 ▸ matchParenRoman_consumes hm
    | none =>
      rw [parenRomanMatcher_new hm hl] at h
      simp only [Option.some.injEq, Prod.mk.injEq] at h
      obtain ⟨-, -, h3⟩ := h
      exact h3 ▸ matchParenRoman_consumes hm

theorem linkMatcher_consumes : MConsumes linkMatcher := by
  intro st cs out st1 rest h
  cases hm : matchLink cs with
  | none => rw [linkMatcher_none hm] at h; simp at h
  | some tr =>
    obtain ⟨t, u, r⟩ := tr
    by_cases ht : t.head? = some '^'
    · rw [linkMatcher_caret hm ht] at h
      simp only [Option.some.injEq, Prod.mk.injEq] at h
      obtain ⟨-, -, h3⟩ := h
      exact h3 ▸ matchLink_consumes hm
    · cases hu : ['L', 'i', 'n', 'k'].isPrefixOf u with
      | true =>
        rw [linkMatcher_linkguard hm ht hu] at h
        simp only [Option.some.injEq, Prod.mk.injEq] at h
        obtain ⟨-, -, h3⟩ := h
        exact h3 ▸ matchLink_consumes hm
      | false =>
        rw [linkMatcher_conv hm ht hu] at h
        simp only [Option.some.injEq, Prod.mk.injEq] at h
        obtain ⟨-, -, h3⟩ := h
        exact h3 ▸ matchLink_consumes hm

theorem urlMatcher_consumes : MConsumes urlMatcher := by
  intro st cs out st1 rest h
  cases hm : matchUrl cs with
  | none => rw [urlMatcher_none hm] at h; simp at h
  | some pr =>
    obtain ⟨u, r⟩ := pr
    rw [urlMatcher_some hm] at h
    simp only [Option.some.injEq, Prod.mk.injEq] at h
    obtain ⟨-, -, h3⟩ := h
    exact h3 ▸ matchUrl_consumes hm

/-! ## Transport from big-step derivations to the fuelled scanners -/

theorem runScan_of_scans {σ : Type} {m : σ → List Char → Option (List Char × σ × List Char)}
    (hm : MConsumes m) {st : σ} {cs out : List Char} {st1 : σ}
    (h : Scans m st cs out st1) :
    ∀ fuel, cs.length ≤ fuel → runScan m fuel st cs = (out, st1) := by
  induction h with
  | nil => intro fuel _; cases fuel <;> rfl
  | stepNone hn hs ih =>
    intro fuel hf
    match fuel with
    | 0 => simp at hf
    | f + 1 =>
      simp only [runScan, hn, ih f (by simp only [List.length_cons] at hf; omega)]
  | stepSome hsome hs ih =>
    intro fuel hf
    match fuel with
    | 0 => simp at hf
    | f + 1 =>
      have hlen := hm _ _ _ _ _ hsome
      simp only [runScan, hsome,
        ih f (by simp only [List.length_cons] at hf hlen; omega)]

theorem pySub_of_scans {σ : Type} {m : σ → List Char → Option (List Char × σ × List Char)}
    (hm : MConsumes m) {st : σ} {cs out : List Char} {st1 : σ}
    (h : Scans m st cs out st1) : pySub m st cs = (out, st1) :=
  runScan_of_scans hm h cs.length (le_refl _)

theorem findAllAux_of_finds {b : List Char → Option (List Char × List Char)}
    (hb : BConsumes b) {cs : List Char} {gs : List (List Char)}
    (h : Finds b cs gs) :
    ∀ fuel, cs.length ≤ fuel → findAllAux b fuel cs = gs := by
  induction h with
  | nil => intro fuel _; cases fuel <;> rfl
  | stepNone hn hs ih =>
    intro fuel hf
    match fuel with
    | 0 => simp at hf
    | f + 1 =>
      simp only [findAllAux, hn, ih f (by simp only [List.length_cons] at hf; omega)]
  | stepSome hsome hs ih =>
    intro fuel hf
    match fuel with
    | 0 => simp at hf
    | f + 1 =>
      have hlen := hb _ _ _ hsome
      simp only [findAllAux, hsome,
        ih f (by simp only [List.length_cons] at hf hlen; omega)]

theorem pyFindAll_of_finds {b : List Char → Option (List Char × List Char)}
    (hb : BConsumes b) {cs : List Char} {gs : List (List Char)}
    (h : Finds b cs gs) : pyFindAll b cs = gs :=
  findAllAux_of_finds hb h cs.length (le_refl _)

/-! ## Building big-step derivations -/

theorem scans_skip_seg {σ : Type} {m : σ → List Char → Option (List Char × σ × List Char)}
    {seg rest out : List Char} {st st1 : σ}
    (hseg : ∀ c ∈ seg, ∀ (st0 : σ) (cs0 : List Char), m st0 (c :: cs0) = none)
    (h : Scans m st rest out st1) :
    Scans m st (seg ++ rest) (seg ++ out) st1 := by
  induction seg with
  | nil => simpa using h
  | cons c s ih =>
    rw [List.cons_append, List.cons_append]
    exact Scans.stepNone (hseg c (by simp) st (s ++ rest))
      (ih (fun c2 hc2 st0 cs0 => hseg c2 (by simp [hc2]) st0 cs0))

theorem scans_of_allNone {σ β : Type} {m : σ → List Char → Option (List Char × σ × List Char)}
    {b : List Char → Option β}
    (hrel : ∀ (st0 : σ) (cs0 : List Char), b cs0 = none → m st0 cs0 = none)
    {l : List Char} (h : allNoneB b l = true) (st : σ) : Scans m st l l st := by
  induction l with
  | nil => exact Scans.nil
  | cons c cs ih =>
    simp only [allNoneB, Bool.and_eq_true, Option.isNone_iff_eq_none] at h
    exact Scans.stepNone (hrel st (c :: cs) h.1) (ih h.2)

theorem pySub_id {σ β : Type} {m : σ → List Char → Option (List Char × σ × List Char)}
    (hm : MConsumes m) {b : List Char → Option β}
    (hrel : ∀ (st0 : σ) (cs0 : List Char), b cs0 = none → m st0 cs0 = none)
    {l : List Char} (h : allNoneB b l = true) (st : σ) : pySub m st l = (l, st) :=
  pySub_of_scans hm (scans_of_allNone hrel h st)

theorem finds_skip_seg {b : List Char → Option (List Char × List Char)}
    {seg rest : List Char} {gs : List (List Char)}
    (hseg : ∀ c ∈ seg, ∀ (cs0 : List Char), b (c :: cs0) = none)
    (h : Finds b rest gs) : Finds b (seg ++ rest) gs := by
  induction seg with
  | nil => simpa using h
  | cons c s ih =>
    rw [List.cons_append]
    exact Finds.stepNone (hseg c (by simp) (s ++ rest))
      (ih (fun c2 hc2 cs0 => hseg c2 (by simp [hc2]) cs0))

theorem finds_of_allNone {b : List Char → Option (List Char × List Char)}
    {l : List Char} (h : allNoneB b l = true) : Finds b l [] := by
  induction l with
  | nil => exact Finds.nil
  | cons c cs ih =>
    simp only [allNoneB, Bool.and_eq_true, Option.isNone_iff_eq_none] at h
    exact Finds.stepNone h.1 (ih h.2)

theorem allNoneB_append {β : Type} {b : List Char → Option β} {seg l2 : List Char}
    (hseg : ∀ c ∈ seg, ∀ (cs0 : List Char), b (c :: cs0) = none)
    (h2 : allNoneB b l2 = true) : allNoneB b (seg ++ l2) = true := by
  induction seg with
  | nil => simpa using h2
  | cons c s ih =>
    rw [List.cons_append]
    simp only [allNoneB, Bool.and_eq_true, Option.isNone_iff_eq_none]
    exact ⟨hseg c (by simp) (s ++ l2),
      ih (fun c2 hc2 cs0 => hseg c2 (by simp [hc2]) cs0)⟩

/-! ## Head-based none lemmas for the base matchers -/

theorem matchWP_none_head {c : Char} (h : c ≠ '[') (cs : List Char) :
    matchWP (c :: cs) = none := by
  cases cs with
  | nil => rfl
  | cons c2 cs2 => simp [matchWP, h]

theorem matchWP_none_pair {c1 c2 : Char} (h : ¬(c1 = '[' ∧ c2 = '[')) (cs : List Char) :
    matchWP (c1 :: c2 :: cs) = none := by
  simp only [matchWP, if_neg h]

theorem matchStdRef_none_head {c : Char} (h : c ≠ '[') (cs : List Char) :
    matchStdRef (c :: cs) = none := by
  cases cs with
  | nil => rfl
  | cons c2 cs2 => simp [matchStdRef, h]

theorem matchStdRef_none_pair {c1 c2 : Char} (h : ¬(c1 = '[' ∧ c2 = '^')) (cs : List Char) :
    matchStdRef (c1 :: c2 :: cs) = none := by
  simp only [matchStdRef, if_neg h]

theorem matchParenNum_none_head {c : Char} (h : c ≠ '(') (cs : List Char) :
    matchParenNum (c :: cs) = none := by
  simp [matchParenNum, h]

theorem matchParenNum_none_open {cs : List Char}
    (h : spanStop Char.isDigit ')' cs = none) : matchParenNum ('(' :: cs) = none := by
  simp [matchParenNum, h]

theorem matchParenRoman_none_head {c : Char} (h : c ≠ '(') (cs : List Char) :
    matchParenRoman (c :: cs) = none := by
  simp [matchParenRoman, h]

theorem matchParenRoman_none_open {cs : List Char}
    (h : spanStop isRomanChar ')' cs = none) : matchParenRoman ('(' :: cs) = none := by
  simp [matchParenRoman, h]

theorem matchLink_none_head {c : Char} (h : c ≠ '[') (cs : List Char) :
    matchLink (c :: cs) = none := by
  simp [matchLink, h]

theorem matchUrl_none_head {c : Char} (h : c ≠ 'h') (cs : List Char) :
    matchUrl (c :: cs) = none := by
  match cs with
  | [] => rfl
  | [_] => rfl
  | [_, _] => rfl
  | _ :: _ :: _ :: _ => simp [matchUrl, h]

/-! ## Character-class facts -/

theorem digit_facts {c : Char} (hc : Char.isDigit c = true) :
    c ≠ '[' ∧ c ≠ ']' ∧ c ≠ '(' ∧ c ≠ ')' ∧ c ≠ 'h' ∧ c ≠ '^' := by
  refine ⟨?_, ?_, ?_, ?_, ?_, ?_⟩ <;> rintro rfl <;> exact absurd hc (by decide)

theorem roman_facts {c : Char} (hc : isRomanChar c = true) :
    c ≠ '[' ∧ c ≠ '(' ∧ c ≠ ')' ∧ Char.isDigit c = false := by
  simp only [isRomanChar, Bool.or_eq_true, beq_iff_eq, or_assoc] at hc
  rcases hc with rfl | rfl | rfl | rfl | rfl | rfl | rfl | rfl | rfl | rfl | rfl | rfl | rfl | rfl <;>
    exact ⟨by decide, by decide, by decide, by decide⟩

theorem lower_facts {c : Char} (hc : c.isLower = true) :
    c ≠ '[' ∧ c ≠ ']' ∧ c ≠ '(' ∧ c ≠ ')' ∧ c ≠ '^' := by
  refine ⟨?_, ?_, ?_, ?_, ?_⟩ <;> rintro rfl <;> exact absurd hc (by decide)

/-! ## Pass-2 loop-body lemmas -/

theorem addStdRef_digit {st : ESt} {g : List Char} (h : pyIsDigitStr g = true) :
    addStdRef st g = st := by
  simp [addStdRef, h]

theorem addStdRef_new {s : ESt} {g : List Char}
    (h1 : lookupN s.refs (String.mk g) = none) (h2 : pyIsDigitStr g = false) :
    addStdRef s g =
      { s with refs := s.refs ++ [(String.mk g, s.counter + 1)],
                counter := s.counter + 1 } := by
  simp [addStdRef, h1, h2]

/-! ## No-match inputs are fixed points of every pass -/

theorem matchStdRef_bconsumes : BConsumes matchStdRef :=
  fun _ _ _ h => matchStdRef_consumes h

theorem noMatchesB_allNone {l : List Char} (h : noMatchesB l = true) :
    allNoneB matchWP l = true ∧ allNoneB matchStdRef l = true ∧
    allNoneB matchParenNum l = true ∧ allNoneB matchParenRoman l = true ∧
    allNoneB matchLink l = true ∧ allNoneB matchUrl l = true := by
  induction l with
  | nil => exact ⟨rfl, rfl, rfl, rfl, rfl, rfl⟩
  | cons c cs ih =>
    simp only [noMatchesB, Bool.and_eq_true, and_assoc] at h
    obtain ⟨h1, h2, h3, h4, h5, h6, h7⟩ := h
    obtain ⟨a1, a2, a3, a4, a5, a6⟩ := ih h7
    simp only [allNoneB, Bool.and_eq_true]
    exact ⟨⟨h1, a1⟩, ⟨h2, a2⟩, ⟨h3, a3⟩, ⟨h4, a4⟩, ⟨h5, a5⟩, ⟨h6, a6⟩⟩

theorem extract_noMatches {content : String} (h : noMatchesB content.data = true) :
    extract_existing_footnotes content = (content, [], []) := by
  obtain ⟨a1, a2, a3, a4, -, -⟩ := noMatchesB_allNone h
  have e1 : pySub wpMatcher (⟨[], 0, []⟩ : ESt) content.data =
      (content.data, (⟨[], 0, []⟩ : ESt)) :=
    pySub_id wpMatcher_consumes (fun _ _ hb => wpMatcher_none hb) a1 _
  have e2 : pyFindAll matchStdRef content.data = [] :=
    pyFindAll_of_finds matchStdRef_bconsumes (finds_of_allNone a2)
  have e3 : pySub parenNumMatcher (⟨[], 0, []⟩ : ESt) content.data =
      (content.data, (⟨[], 0, []⟩ : ESt)) :=
    pySub_id parenNumMatcher_consumes (fun _ _ hb => parenNumMatcher_none hb) a3 _
  have e4 : pySub parenRomanMatcher (⟨[], 0, []⟩ : ESt) content.data =
      (content.data, (⟨[], 0, []⟩ : ESt)) :=
    pySub_id parenRomanMatcher_consumes (fun _ _ hb => parenRomanMatcher_none hb) a4 _
  simp only [extract_existing_footnotes, e1, e2, List.foldl_nil, e3, e4, strMk_data]

theorem harvest_noMatches {content : String} (h : noMatchesB content.data = true)
    (k : Nat) : extract_links_and_convert_to_footnotes content k = (content, []) := by
  obtain ⟨-, -, -, -, a5, a6⟩ := noMatchesB_allNone h
  have e1 : pySub linkMatcher (⟨k, []⟩ : HSt) content.data =
      (content.data, (⟨k, []⟩ : HSt)) :=
    pySub_id linkMatcher_consumes (fun _ _ hb => linkMatcher_none hb) a5 _
  have e2 : pySub urlMatcher (⟨k, []⟩ : HSt) content.data =
      (content.data, (⟨k, []⟩ : HSt)) :=
    pySub_id urlMatcher_consumes (fun _ _ hb => urlMatcher_none hb) a6 _
  simp only [extract_links_and_convert_to_footnotes, e1, e2, strMk_data]

/-! # Claim theorems -/

set_option maxRecDepth 8000

/-- C1: the claim that every Harvester-assigned footnote number is strictly
greater than every Extractor-assigned number fails: on
`"(1) and [a](https://b.c)"` the Extractor assigns number 1 (to the
parenthesized reference, with no recorded target), but
`save_post_as_markdown` starts the Harvester at
`len(existing_footnote_defs) = 0`, so the Harvester assigns the inline link
number 1 as well — not strictly greater.  The resulting body text carries two
unrelated `[^1]` markers. -/
theorem C1_counter_restart_bug :
    (extract_existing_footnotes "(1) and [a](https://b.c)").2.1 = [("paren_1", 1)] ∧
    (extract_links_and_convert_to_footnotes
        (extract_existing_footnotes "(1) and [a](https://b.c)").1
        (extract_existing_footnotes "(1) and [a](https://b.c)").2.2.length).2 =
      [(1, "https://b.c")] ∧
    (process_post_content "(1) and [a](https://b.c)" []).1 = "[^1] and a[^1]" := by
  decide

/-- C2 counterexample: on the spec's end-to-end input the pipeline does not
produce the claimed body text `See here[^1] and [^2] also [^3].`. -/
theorem C2_counterexample :
    (process_post_content "See [here](https://x.com/p) and (1) also (i)." []).1 ≠
      "See here[^1] and [^2] also [^3]." := by
  decide

/-- C2 amended: on input `See [here](https://x.com/p) and (1) also (i).` with
an empty Corpus URL Map the pipeline produces body text
`See here[^1] and [^1] also [^2].` (the Harvester restarts after the count of
footnote definitions, which is 0, reusing number 1) and a references section
whose only entry line is `[^1]: https://x.com/p` under External Links. -/
theorem C2_amended_pipeline :
    process_post_content "See [here](https://x.com/p) and (1) also (i)." [] =
      ("See here[^1] and [^1] also [^2].",
       "\n## References\n\n### External Links\n[^1]: https://x.com/p") := by
  decide

/-- C3: the claim that the assigned numbers are exactly `{1, ..., N}` with no
reuse fails: on `"(1) (2) [a](https://b.c) [b](https://c.d)"` there are
N = 4 reference keys plus harvested links, but the Extractor assigns
numbers 1, 2 and the Harvester (restarted at `len(defs) = 0`) assigns
numbers 1, 2 again — numbers 3 and 4 are never assigned and 1, 2 are reused. -/
theorem C3_numbering_gap_bug :
    (extract_existing_footnotes "(1) (2) [a](https://b.c) [b](https://c.d)").2.1 =
      [("paren_1", 1), ("paren_2", 2)] ∧
    (extract_links_and_convert_to_footnotes
        (extract_existing_footnotes "(1) (2) [a](https://b.c) [b](https://c.d)").1
        (extract_existing_footnotes "(1) (2) [a](https://b.c) [b](https://c.d)").2.2.length).2 =
      [(1, "https://b.c"), (2, "https://c.d")] := by
  decide

/-- C4 counterexample: on an input containing both `(IV)` and `(iv)` the
Extractor assigns the two occurrences DIFFERENT footnote numbers (1 and 2),
refuting case-insensitive deduplication: the dedup keys `roman_IV` and
`roman_iv` keep the original case. -/
theorem C4_counterexample :
    lookupN (extract_existing_footnotes "(IV) a (iv)").2.1 "roman_IV" = some 1 ∧
    lookupN (extract_existing_footnotes "(IV) a (iv)").2.1 "roman_iv" = some 2 ∧
    (extract_existing_footnotes "(IV) a (iv)").1 = "[^1] a [^2]" := by
  decide

/-- C6 counterexample: classification is not by domain — the academic check is
a substring test over the whole lowercased URL, so
`https://example.com/the-bible-truth` (domain `example.com`, token `bible`
only in the path) renders under Academic Sources, not under External Links as
the domain-based claim requires. -/
theorem C6_counterexample :
    create_organized_footnotes_section []
        [(1, "https://example.com/the-bible-truth")] [] =
      "\n## References\n\n### Academic Sources\n[^1]: https://example.com/the-bible-truth\n" ∧
    create_organized_footnotes_section []
        [(1, "https://example.com/the-bible-truth")] [] ≠
      "\n## References\n\n### External Links\n[^1]: https://example.com/the-bible-truth" := by
  decide

/-- C7 counterexample: a link whose text begins with a caret is NOT left
untouched by the Harvester as a whole: the inline-link pass skips it, but the
bare-URL pass still rewrites the http URL inside its target, so
`[^1](https://a.b)` becomes `[^1]([Link][^1])`. -/
theorem C7_counterexample :
    extract_links_and_convert_to_footnotes "[^1](https://a.b)" 0 =
      ("[^1]([Link][^1])", [(1, "https://a.b")]) ∧
    ("[^1]([Link][^1])" : String) ≠ "[^1](https://a.b)" := by
  decide

/-- C8: on any input in which none of the six patterns (WordPress bracket
footnotes, standard markers, parenthesized decimals, parenthesized romans,
inline links, bare URLs) matches at any position, the pipeline is the
identity on the text, the Extractor records nothing, the Harvester converts
nothing, and the rendered references section is the empty string. -/
theorem C8_empty_pipeline_identity (content : String)
    (url_to_filename : List (String × String))
    (h : noMatchesB content.data = true) :
    process_post_content content url_to_filename = (content, "") ∧
    extract_existing_footnotes content = (content, [], []) ∧
    (∀ k, extract_links_and_convert_to_footnotes content k = (content, [])) := by
  refine ⟨?_, extract_noMatches h, harvest_noMatches h⟩
  simp only [process_post_content, extract_noMatches h, harvest_noMatches h,
    List.length_nil]
  rfl

/-- C8 witness: a concrete marker-free input, checked against the decidable
no-match predicate and run through the pipeline. -/
theorem C8_empty_pipeline_identity_witness :
    noMatchesB "No links or markers here. Just prose!".data = true ∧
    process_post_content "No links or markers here. Just prose!" [] =
      ("No links or markers here. Just prose!", "") :=
  ⟨by decide, (C8_empty_pipeline_identity "No links or markers here. Just prose!" []
      (by decide)).1⟩

/-! ## Matcher evaluation on well-formed spans -/

theorem strData_mk (l : List Char) : (String.mk l).data = l := rfl

theorem matchStdRef_eval {g r : List Char}
    (hg : ∀ c ∈ g, (c != ']') = true) (hne : g ≠ []) :
    matchStdRef ('[' :: '^' :: (g ++ ']' :: r)) = some (g, r) := by
  have h1 : spanStop (· != ']') ']' (g ++ ']' :: r) = some (g, r) :=
    spanStop_eval g r hg hne (by decide)
  simp [matchStdRef, h1]

theorem matchParenNum_eval {d rest : List Char}
    (hd : ∀ c ∈ d, Char.isDigit c = true) (hne : d ≠ []) :
    matchParenNum ('(' :: (d ++ ')' :: rest)) = some (d, rest) := by
  have h1 : spanStop Char.isDigit ')' (d ++ ')' :: rest) = some (d, rest) :=
    spanStop_eval d rest hd hne (by decide)
  simp [matchParenNum, h1]

theorem matchParenRoman_eval {g rest : List Char}
    (hg : ∀ c ∈ g, isRomanChar c = true) (hne : g ≠ []) :
    matchParenRoman ('(' :: (g ++ ')' :: rest)) = some (g, rest) := by
  have h1 : spanStop isRomanChar ')' (g ++ ')' :: rest) = some (g, rest) :=
    spanStop_eval g rest hg hne (by decide)
  simp [matchParenRoman, h1]

theorem matchWP_eval {d u rest : List Char}
    (hd : ∀ c ∈ d, Char.isDigit c = true) (hdne : d ≠ [])
    (hu : ∀ c ∈ u, (c != ')') = true) (hune : u ≠ []) :
    matchWP ('[' :: '[' :: (d ++ ']' :: ']' :: '(' :: (u ++ ')' :: rest))) =
      some (d, u, rest) := by
  have h1 : spanStop Char.isDigit ']' (d ++ ']' :: ']' :: '(' :: (u ++ ')' :: rest)) =
      some (d, ']' :: '(' :: (u ++ ')' :: rest)) :=
    spanStop_eval d (']' :: '(' :: (u ++ ')' :: rest)) hd hdne (by decide)
  have h2 : spanStop (· != ')') ')' (u ++ ')' :: rest) = some (u, rest) :=
    spanStop_eval u rest hu hune (by decide)
  simp [matchWP, h1, h2]

theorem matchLink_eval {t u rest : List Char}
    (ht : ∀ c ∈ t, (c != ']') = true) (htne : t ≠ [])
    (hu : ∀ c ∈ u, (c != ')') = true) (hune : u ≠ []) :
    matchLink ('[' :: (t ++ ']' :: '(' :: (u ++ ')' :: rest))) = some (t, u, rest) := by
  have h1 : spanStop (· != ']') ']' (t ++ ']' :: '(' :: (u ++ ')' :: rest)) =
      some (t, '(' :: (u ++ ')' :: rest)) :=
    spanStop_eval t ('(' :: (u ++ ')' :: rest)) ht htne (by decide)
  have h2 : spanStop (· != ')') ')' (u ++ ')' :: rest) = some (u, rest) :=
    spanStop_eval u rest hu hune (by decide)
  simp [matchLink, h1, h2]

/-- C9: for a family of non-numeric standard footnote markers `[^tag]`
(lower-case alphabetic tag), the Extractor leaves the text unchanged, records
the tag with the advanced counter value 1 in `footnote_refs`, and records no
definition: the assigned number appears nowhere in the output. -/
theorem C9_nonnumeric_marker (tag : List Char)
    (hlow : tag.all Char.isLower = true) (hne : tag ≠ [])
    (hd : pyIsDigitStr tag = false) :
    extract_existing_footnotes
        (String.mk ('a' :: ' ' :: '[' :: '^' :: (tag ++ (']' :: ' ' :: 'b' :: [])))) =
      (String.mk ('a' :: ' ' :: '[' :: '^' :: (tag ++ (']' :: ' ' :: 'b' :: []))),
       [(String.mk tag, 1)], []) := by
  have hmem : ∀ c ∈ tag, Char.isLower c = true := by
    intro c hc
    exact List.all_eq_true.mp hlow c hc
  have hnb : ∀ c ∈ tag, c ≠ '[' := fun c hc => (lower_facts (hmem c hc)).1
  have hnbr : ∀ c ∈ tag, (c != ']') = true := fun c hc => by
    have := (lower_facts (hmem c hc)).2.1
    simpa [bne_iff_ne] using this
  have hnp : ∀ c ∈ tag, c ≠ '(' := fun c hc => (lower_facts (hmem c hc)).2.2.1
  have a1 : allNoneB matchWP
      ('a' :: ' ' :: '[' :: '^' :: (tag ++ (']' :: ' ' :: 'b' :: []))) = true := by
    simp only [allNoneB, Bool.and_eq_true, Option.isNone_iff_eq_none]
    refine ⟨matchWP_none_head (by decide) _, matchWP_none_head (by decide) _,
      matchWP_none_pair (by decide) _, matchWP_none_head (by decide) _, ?_⟩
    exact allNoneB_append (fun c hc cs0 => matchWP_none_head (hnb c hc) cs0) (by decide)
  have a3 : allNoneB matchParenNum
      ('a' :: ' ' :: '[' :: '^' :: (tag ++ (']' :: ' ' :: 'b' :: []))) = true := by
    simp only [allNoneB, Bool.and_eq_true, Option.isNone_iff_eq_none]
    refine ⟨matchParenNum_none_head (by decide) _, matchParenNum_none_head (by decide) _,
      matchParenNum_none_head (by decide) _, matchParenNum_none_head (by decide) _, ?_⟩
    exact allNoneB_append (fun c hc cs0 => matchParenNum_none_head (hnp c hc) cs0) (by decide)
  have a4 : allNoneB matchParenRoman
      ('a' :: ' ' :: '[' :: '^' :: (tag ++ (']' :: ' ' :: 'b' :: []))) = true := by
    simp only [allNoneB, Bool.and_eq_true, Option.isNone_iff_eq_none]
    refine ⟨matchParenRoman_none_head (by decide) _, matchParenRoman_none_head (by decide) _,
      matchParenRoman_none_head (by decide) _, matchParenRoman_none_head (by decide) _, ?_⟩
    exact allNoneB_append (fun c hc cs0 => matchParenRoman_none_head (hnp c hc) cs0) (by decide)
  have e1 : pySub wpMatcher (⟨[], 0, []⟩ : ESt)
      ('a' :: ' ' :: '[' :: '^' :: (tag ++ (']' :: ' ' :: 'b' :: []))) =
      (('a' :: ' ' :: '[' :: '^' :: (tag ++ (']' :: ' ' :: 'b' :: []))),
        (⟨[], 0, []⟩ : ESt)) :=
    pySub_id wpMatcher_consumes (fun _ _ hb => wpMatcher_none hb) a1 _
  have f2 : Finds matchStdRef
      ('a' :: ' ' :: '[' :: '^' :: (tag ++ (']' :: ' ' :: 'b' :: []))) [tag] := by
    apply Finds.stepNone (matchStdRef_none_head (by decide) _)
    apply Finds.stepNone (matchStdRef_none_head (by decide) _)
    exact Finds.stepSome (matchStdRef_eval hnbr hne) (finds_of_allNone (by decide))
  have e2 : pyFindAll matchStdRef
      ('a' :: ' ' :: '[' :: '^' :: (tag ++ (']' :: ' ' :: 'b' :: []))) = [tag] :=
    pyFindAll_of_finds matchStdRef_bconsumes f2
  have e3 : pySub parenNumMatcher (⟨[(String.mk tag, 1)], 1, []⟩ : ESt)
      ('a' :: ' ' :: '[' :: '^' :: (tag ++ (']' :: ' ' :: 'b' :: []))) =
      (('a' :: ' ' :: '[' :: '^' :: (tag ++ (']' :: ' ' :: 'b' :: []))),
        (⟨[(String.mk tag, 1)], 1, []⟩ : ESt)) :=
    pySub_id parenNumMatcher_consumes (fun _ _ hb => parenNumMatcher_none hb) a3 _
  have e4 : pySub parenRomanMatcher (⟨[(String.mk tag, 1)], 1, []⟩ : ESt)
      ('a' :: ' ' :: '[' :: '^' :: (tag ++ (']' :: ' ' :: 'b' :: []))) =
      (('a' :: ' ' :: '[' :: '^' :: (tag ++ (']' :: ' ' :: 'b' :: []))),
        (⟨[(String.mk tag, 1)], 1, []⟩ : ESt)) :=
    pySub_id parenRomanMatcher_consumes (fun _ _ hb => parenRomanMatcher_none hb) a4 _
  have hstep : addStdRef (⟨[], 0, []⟩ : ESt) tag = (⟨[(String.mk tag, 1)], 1, []⟩ : ESt) := by
    rw [addStdRef_new (s := (⟨[], 0, []⟩ : ESt)) rfl hd]
    rfl
  simp only [extract_existing_footnotes, strData_mk, e1, e2, List.foldl_cons,
    List.foldl_nil, hstep, e3, e4]

/-- C9 witness: the family theorem applied to the tag `note`. -/
theorem C9_nonnumeric_marker_witness :
    (['n', 'o', 't', 'e'].all Char.isLower = true) ∧ ['n', 'o', 't', 'e'] ≠ [] ∧
    pyIsDigitStr ['n', 'o', 't', 'e'] = false ∧
    extract_existing_footnotes "a [^note] b" = ("a [^note] b", [("note", 1)], []) := by
  refine ⟨by decide, by decide, by decide, ?_⟩
  have h := C9_nonnumeric_marker ['n', 'o', 't', 'e'] (by decide) (by decide) (by decide)
  have e1 : String.mk ('a' :: ' ' :: '[' :: '^' ::
      (['n', 'o', 't', 'e'] ++ (']' :: ' ' :: 'b' :: []))) = "a [^note] b" := by decide
  have e2 : String.mk ['n', 'o', 't', 'e'] = "note" := by decide
  rw [e1, e2] at h
  exact h

/-! ## Roman-numeral pass helpers -/

theorem matchParenNum_none_roman {r t : List Char}
    (hr : ∀ c ∈ r, isRomanChar c = true) (hne : r ≠ []) :
    matchParenNum ('(' :: (r ++ t)) = none := by
  obtain ⟨c0, rt, rfl⟩ := List.exists_cons_of_ne_nil hne
  rw [List.cons_append]
  exact matchParenNum_none_open (spanStop_none_head (roman_facts (hr c0 (by simp))).2.2.2)

theorem roman_key_inj {r1 r2 : List Char} :
    String.mk ('r' :: 'o' :: 'm' :: 'a' :: 'n' :: '_' :: r1) =
      String.mk ('r' :: 'o' :: 'm' :: 'a' :: 'n' :: '_' :: r2) ↔ r1 = r2 := by
  constructor
  · intro h
    have h2 := congrArg String.data h
    simpa using h2
  · rintro rfl; rfl

/-- C4 amended: parenthesized roman numerals are matched case-insensitively
but deduplicated case-SENSITIVELY: in one post, two parenthesized roman
strings collapse to the same footnote number exactly when they are equal as
strings, so `(IV)` and `(iv)` receive different numbers while an exact
repetition reuses its number. -/
theorem C4_amended_case_sensitive_dedup (r1 r2 : List Char)
    (h1 : r1.all isRomanChar = true) (h1ne : r1 ≠ [])
    (h2 : r2.all isRomanChar = true) (h2ne : r2 ≠ []) :
    (r1 ≠ r2 →
      extract_existing_footnotes
          (String.mk ('(' :: (r1 ++ ')' :: ' ' :: 'a' :: ' ' :: '(' :: (r2 ++ [')'])))) =
        ("[^1] a [^2]",
         [(String.mk ('r' :: 'o' :: 'm' :: 'a' :: 'n' :: '_' :: r1), 1),
          (String.mk ('r' :: 'o' :: 'm' :: 'a' :: 'n' :: '_' :: r2), 2)], [])) ∧
    (r1 = r2 →
      extract_existing_footnotes
          (String.mk ('(' :: (r1 ++ ')' :: ' ' :: 'a' :: ' ' :: '(' :: (r2 ++ [')'])))) =
        ("[^1] a [^1]",
         [(String.mk ('r' :: 'o' :: 'm' :: 'a' :: 'n' :: '_' :: r1), 1)], [])) := by
  have hm1 : ∀ c ∈ r1, isRomanChar c = true := fun c hc => List.all_eq_true.mp h1 c hc
  have hm2 : ∀ c ∈ r2, isRomanChar c = true := fun c hc => List.all_eq_true.mp h2 c hc
  have hnb1 : ∀ c ∈ r1, c ≠ '[' := fun c hc => (roman_facts (hm1 c hc)).1
  have hnb2 : ∀ c ∈ r2, c ≠ '[' := fun c hc => (roman_facts (hm2 c hc)).1
  have hnp1 : ∀ c ∈ r1, c ≠ '(' := fun c hc => (roman_facts (hm1 c hc)).2.1
  have hnp2 : ∀ c ∈ r2, c ≠ '(' := fun c hc => (roman_facts (hm2 c hc)).2.1
  -- pass 1 (WordPress) is the identity: no '[' occurs
  have a1 : allNoneB matchWP
      ('(' :: (r1 ++ ')' :: ' ' :: 'a' :: ' ' :: '(' :: (r2 ++ [')']))) = true := by
    simp only [allNoneB, Bool.and_eq_true, Option.isNone_iff_eq_none]
    refine ⟨matchWP_none_head (by decide) _, ?_⟩
    apply allNoneB_append (fun c hc cs0 => matchWP_none_head (hnb1 c hc) cs0)
    simp only [allNoneB, Bool.and_eq_true, Option.isNone_iff_eq_none]
    refine ⟨matchWP_none_head (by decide) _, matchWP_none_head (by decide) _,
      matchWP_none_head (by decide) _, matchWP_none_head (by decide) _,
      matchWP_none_head (by decide) _, ?_⟩
    exact allNoneB_append (fun c hc cs0 => matchWP_none_head (hnb2 c hc) cs0) (by decide)
  -- pass 2 finds nothing: no '[' occurs
  have a2 : allNoneB matchStdRef
      ('(' :: (r1 ++ ')' :: ' ' :: 'a' :: ' ' :: '(' :: (r2 ++ [')']))) = true := by
    simp only [allNoneB, Bool.and_eq_true, Option.isNone_iff_eq_none]
    refine ⟨matchStdRef_none_head (by decide) _, ?_⟩
    apply allNoneB_append (fun c hc cs0 => matchStdRef_none_head (hnb1 c hc) cs0)
    simp only [allNoneB, Bool.and_eq_true, Option.isNone_iff_eq_none]
    refine ⟨matchStdRef_none_head (by decide) _, matchStdRef_none_head (by decide) _,
      matchStdRef_none_head (by decide) _, matchStdRef_none_head (by decide) _,
      matchStdRef_none_head (by decide) _, ?_⟩
    exact allNoneB_append (fun c hc cs0 => matchStdRef_none_head (hnb2 c hc) cs0) (by decide)
  -- pass 3 (decimals) is the identity: each '(' is followed by a roman letter
  have a3 : allNoneB matchParenNum
      ('(' :: (r1 ++ ')' :: ' ' :: 'a' :: ' ' :: '(' :: (r2 ++ [')']))) = true := by
    simp only [allNoneB, Bool.and_eq_true, Option.isNone_iff_eq_none]
    refine ⟨matchParenNum_none_roman hm1 h1ne, ?_⟩
    apply allNoneB_append (fun c hc cs0 => matchParenNum_none_head (hnp1 c hc) cs0)
    simp only [allNoneB, Bool.and_eq_true, Option.isNone_iff_eq_none]
    refine ⟨matchParenNum_none_head (by decide) _, matchParenNum_none_head (by decide) _,
      matchParenNum_none_head (by decide) _, matchParenNum_none_head (by decide) _,
      ?_, ?_⟩
    · exact matchParenNum_none_roman (t := [')']) hm2 h2ne
    · exact allNoneB_append (fun c hc cs0 => matchParenNum_none_head (hnp2 c hc) cs0)
        (by decide)
  have e1 : pySub wpMatcher (⟨[], 0, []⟩ : ESt)
      ('(' :: (r1 ++ ')' :: ' ' :: 'a' :: ' ' :: '(' :: (r2 ++ [')']))) =
      ('(' :: (r1 ++ ')' :: ' ' :: 'a' :: ' ' :: '(' :: (r2 ++ [')'])),
        (⟨[], 0, []⟩ : ESt)) :=
    pySub_id wpMatcher_consumes (fun _ _ hb => wpMatcher_none hb) a1 _
  have e2 : pyFindAll matchStdRef
      ('(' :: (r1 ++ ')' :: ' ' :: 'a' :: ' ' :: '(' :: (r2 ++ [')']))) = [] :=
    pyFindAll_of_finds matchStdRef_bconsumes (finds_of_allNone a2)
  have e3 : pySub parenNumMatcher (⟨[], 0, []⟩ : ESt)
      ('(' :: (r1 ++ ')' :: ' ' :: 'a' :: ' ' :: '(' :: (r2 ++ [')']))) =
      ('(' :: (r1 ++ ')' :: ' ' :: 'a' :: ' ' :: '(' :: (r2 ++ [')'])),
        (⟨[], 0, []⟩ : ESt)) :=
    pySub_id parenNumMatcher_consumes (fun _ _ hb => parenNumMatcher_none hb) a3 _
  have hseg : ∀ c ∈ [' ', 'a', ' '], ∀ (st0 : ESt) (cs0 : List Char),
      parenRomanMatcher st0 (c :: cs0) = none := by
    intro c hc st0 cs0
    apply parenRomanMatcher_none
    apply matchParenRoman_none_head ?_ cs0
    simp only [List.mem_cons, List.mem_singleton, List.not_mem_nil, or_false] at hc
    rcases hc with rfl | rfl | rfl <;> decide
  constructor
  · -- distinct strings: distinct keys, distinct numbers
    intro hne12
    have hscan : Scans parenRomanMatcher (⟨[], 0, []⟩ : ESt)
        ('(' :: (r1 ++ ')' :: ' ' :: 'a' :: ' ' :: '(' :: (r2 ++ [')'])))
        (fnref 1 ++ ([' ', 'a', ' '] ++ (fnref 2 ++ [])))
        (⟨[(String.mk ('r' :: 'o' :: 'm' :: 'a' :: 'n' :: '_' :: r1), 1),
           (String.mk ('r' :: 'o' :: 'm' :: 'a' :: 'n' :: '_' :: r2), 2)], 2, []⟩ : ESt) := by
      apply Scans.stepSome
        (parenRomanMatcher_new (s := (⟨[], 0, []⟩ : ESt)) (matchParenRoman_eval hm1 h1ne) rfl)
      apply scans_skip_seg hseg
      apply Scans.stepSome (parenRomanMatcher_new
        (s := (⟨[(String.mk ('r' :: 'o' :: 'm' :: 'a' :: 'n' :: '_' :: r1), 1)], 1, []⟩ : ESt))
        (matchParenRoman_eval hm2 h2ne) ?_)
      · exact Scans.nil
      · simp only [lookupN]
        rw [if_neg (fun hk => hne12 (roman_key_inj.mp hk))]
    have e4 := pySub_of_scans parenRomanMatcher_consumes hscan
    have hout : String.mk (fnref 1 ++ ([' ', 'a', ' '] ++ (fnref 2 ++ []))) =
        "[^1] a [^2]" := by decide
    simp only [extract_existing_footnotes, strData_mk, e1, e2, List.foldl_nil, e3, e4, hout]
  · -- equal strings: the second occurrence reuses number 1
    rintro rfl
    have hscan : Scans parenRomanMatcher (⟨[], 0, []⟩ : ESt)
        ('(' :: (r1 ++ ')' :: ' ' :: 'a' :: ' ' :: '(' :: (r1 ++ [')'])))
        (fnref 1 ++ ([' ', 'a', ' '] ++ (fnref 1 ++ [])))
        (⟨[(String.mk ('r' :: 'o' :: 'm' :: 'a' :: 'n' :: '_' :: r1), 1)], 1, []⟩ : ESt) := by
      apply Scans.stepSome
        (parenRomanMatcher_new (s := (⟨[], 0, []⟩ : ESt)) (matchParenRoman_eval hm1 h1ne) rfl)
      apply scans_skip_seg hseg
      apply Scans.stepSome (parenRomanMatcher_hit
        (s := (⟨[(String.mk ('r' :: 'o' :: 'm' :: 'a' :: 'n' :: '_' :: r1), 1)], 1, []⟩ : ESt))
        (matchParenRoman_eval hm1 h1ne) ?_)
      · exact Scans.nil
      · simp [lookupN]
    have e4 := pySub_of_scans parenRomanMatcher_consumes hscan
    have hout : String.mk (fnref 1 ++ ([' ', 'a', ' '] ++ (fnref 1 ++ []))) =
        "[^1] a [^1]" := by decide
    simp only [extract_existing_footnotes, strData_mk, e1, e2, List.foldl_nil, e3, e4, hout]

/-- C4 amended witness: the family theorem applied to `(IV)`/`(iv)` (distinct
numbers) and to `(iv)`/`(iv)` (number reused). -/
theorem C4_amended_witness :
    (['I', 'V'] ≠ ['i', 'v'] ∧
      extract_existing_footnotes "(IV) a (iv)" =
        ("[^1] a [^2]", [("roman_IV", 1), ("roman_iv", 2)], [])) ∧
    extract_existing_footnotes "(iv) a (iv)" =
      ("[^1] a [^1]", [("roman_iv", 1)], []) := by
  have hA := (C4_amended_case_sensitive_dedup ['I', 'V'] ['i', 'v']
    (by decide) (by decide) (by decide) (by decide)).1 (by decide)
  have hB := (C4_amended_case_sensitive_dedup ['i', 'v'] ['i', 'v']
    (by decide) (by decide) (by decide) (by decide)).2 rfl
  refine ⟨⟨by decide, ?_⟩, ?_⟩
  · have e1 : String.mk ('(' :: (['I', 'V'] ++ ')' :: ' ' :: 'a' :: ' ' :: '(' ::
        (['i', 'v'] ++ [')']))) = "(IV) a (iv)" := by decide
    have e2 : String.mk ('r' :: 'o' :: 'm' :: 'a' :: 'n' :: '_' :: ['I', 'V']) =
        "roman_IV" := by decide
    have e3 : String.mk ('r' :: 'o' :: 'm' :: 'a' :: 'n' :: '_' :: ['i', 'v']) =
        "roman_iv" := by decide
    rw [e1, e2, e3] at hA
    exact hA
  · have e1 : String.mk ('(' :: (['i', 'v'] ++ ')' :: ' ' :: 'a' :: ' ' :: '(' ::
        (['i', 'v'] ++ [')']))) = "(iv) a (iv)" := by decide
    have e3 : String.mk ('r' :: 'o' :: 'm' :: 'a' :: 'n' :: '_' :: ['i', 'v']) =
        "roman_iv" := by decide
    rw [e1, e3] at hB
    exact hB

/-! ## Key-disjointness and pass-2 helpers for C5 -/

theorem addStdRef_one (st : ESt) : addStdRef st ['1'] = st :=
  addStdRef_digit (by decide)

theorem lookup_single_paren_ne (d : List Char) (n : Nat) :
    lookupN [(String.mk d, n)]
      (String.mk ('p' :: 'a' :: 'r' :: 'e' :: 'n' :: '_' :: d)) = none := by
  have hne : String.mk d ≠ String.mk ('p' :: 'a' :: 'r' :: 'e' :: 'n' :: '_' :: d) := by
    intro hk
    have h2 := congrArg (fun s : String => s.data.length) hk
    simp only [strData_mk, List.length_cons] at h2
    omega
  simp [lookupN, hne]

/-- C5: deduplication is keyed by Reference Key.
(A) Two WordPress bracket footnotes with the same digit label but different
URLs collapse to one number, keeping the first URL.
(B) Two inline links to the identical URL are NOT deduplicated: each gets its
own number and its own definition entry.
(C) A WordPress bracket footnote with label `d` and a parenthesized decimal
`(d)` with the same digits never collapse: their keys (`d` vs `paren_d`)
differ, so they receive numbers 1 and 2. -/
theorem C5_dedup_by_reference_key (d u u1 u2 : List Char)
    (hdall : d.all Char.isDigit = true) (hdne : d ≠ [])
    (hu : ∀ c ∈ u, (c != ')') = true) (hune : u ≠ [])
    (huL : ['L', 'i', 'n', 'k'].isPrefixOf u = false)
    (hu1 : ∀ c ∈ u1, (c != ')') = true) (hu1ne : u1 ≠ [])
    (hu2 : ∀ c ∈ u2, (c != ')') = true) (hu2ne : u2 ≠ []) :
    extract_existing_footnotes (String.mk
        ('[' :: '[' :: (d ++ ']' :: ']' :: '(' :: (u1 ++ ')' ::
          (' ' :: 'x' :: ' ' :: '[' :: '[' ::
            (d ++ ']' :: ']' :: '(' :: (u2 ++ [')']))))))) =
      ("[^1] x [^1]", [(String.mk d, 1)], [(1, String.mk u1)]) ∧
    extract_links_and_convert_to_footnotes (String.mk
        ('[' :: (['a'] ++ ']' :: '(' :: (u ++ ')' ::
          (' ' :: '[' :: (['b'] ++ ']' :: '(' :: (u ++ [')']))))))) 0 =
      ("a[^1] b[^2]", [(1, String.mk u), (2, String.mk u)]) ∧
    extract_existing_footnotes (String.mk
        ('[' :: '[' :: (d ++ ']' :: ']' :: '(' :: (u ++ ')' ::
          (' ' :: 'y' :: ' ' :: '(' :: (d ++ [')'])))))) =
      ("[^1] y [^2]",
       [(String.mk d, 1), (String.mk ('p' :: 'a' :: 'r' :: 'e' :: 'n' :: '_' :: d), 2)],
       [(1, String.mk u)]) := by
  have hdm : ∀ c ∈ d, Char.isDigit c = true := fun c hc => List.all_eq_true.mp hdall c hc
  have hdnb : ∀ c ∈ d, c ≠ '[' := fun c hc => (digit_facts (hdm c hc)).1
  refine ⟨?_, ?_, ?_⟩
  · -- (A)
    have hsegA : ∀ c ∈ [' ', 'x', ' '], ∀ (st0 : ESt) (cs0 : List Char),
        wpMatcher st0 (c :: cs0) = none := by
      intro c hc st0 cs0
      apply wpMatcher_none
      apply matchWP_none_head ?_ cs0
      simp only [List.mem_cons, List.not_mem_nil, or_false] at hc
      rcases hc with rfl | rfl | rfl <;> decide
    have hA : Scans wpMatcher (⟨[], 0, []⟩ : ESt)
        ('[' :: '[' :: (d ++ ']' :: ']' :: '(' :: (u1 ++ ')' ::
          (' ' :: 'x' :: ' ' :: '[' :: '[' ::
            (d ++ ']' :: ']' :: '(' :: (u2 ++ [')']))))))
        (fnref 1 ++ ([' ', 'x', ' '] ++ (fnref 1 ++ [])))
        (⟨[(String.mk d, 1)], 1, [(1, String.mk u1)]⟩ : ESt) := by
      apply Scans.stepSome (wpMatcher_new (s := (⟨[], 0, []⟩ : ESt))
        (matchWP_eval hdm hdne hu1 hu1ne) rfl)
      apply scans_skip_seg hsegA
      apply Scans.stepSome (wpMatcher_hit
        (s := (⟨[(String.mk d, 1)], 1, [(1, String.mk u1)]⟩ : ESt))
        (matchWP_eval hdm hdne hu2 hu2ne) (by simp [lookupN]))
      exact Scans.nil
    have eA1 := pySub_of_scans wpMatcher_consumes hA
    have eA2 : pyFindAll matchStdRef
        (fnref 1 ++ ([' ', 'x', ' '] ++ (fnref 1 ++ []))) = [['1'], ['1']] := by decide
    have eA3 : pySub parenNumMatcher (⟨[(String.mk d, 1)], 1, [(1, String.mk u1)]⟩ : ESt)
        (fnref 1 ++ ([' ', 'x', ' '] ++ (fnref 1 ++ []))) =
        ((fnref 1 ++ ([' ', 'x', ' '] ++ (fnref 1 ++ []))),
          (⟨[(String.mk d, 1)], 1, [(1, String.mk u1)]⟩ : ESt)) :=
      pySub_id parenNumMatcher_consumes (fun _ _ hb => parenNumMatcher_none hb) (by decide) _
    have eA4 : pySub parenRomanMatcher (⟨[(String.mk d, 1)], 1, [(1, String.mk u1)]⟩ : ESt)
        (fnref 1 ++ ([' ', 'x', ' '] ++ (fnref 1 ++ []))) =
        ((fnref 1 ++ ([' ', 'x', ' '] ++ (fnref 1 ++ []))),
          (⟨[(String.mk d, 1)], 1, [(1, String.mk u1)]⟩ : ESt)) :=
      pySub_id parenRomanMatcher_consumes (fun _ _ hb => parenRomanMatcher_none hb) (by decide) _
    have houtA : String.mk (fnref 1 ++ ([' ', 'x', ' '] ++ (fnref 1 ++ []))) =
        "[^1] x [^1]" := by decide
    simp only [extract_existing_footnotes, strData_mk, eA1, eA2, List.foldl_cons,
      List.foldl_nil, addStdRef_one, eA3, eA4, houtA]
  · -- (B)
    have hsegB : ∀ c ∈ [' '], ∀ (st0 : HSt) (cs0 : List Char),
        linkMatcher st0 (c :: cs0) = none := by
      intro c hc st0 cs0
      apply linkMatcher_none
      apply matchLink_none_head ?_ cs0
      simp only [List.mem_singleton] at hc
      subst hc; decide
    have hB : Scans linkMatcher (⟨0, []⟩ : HSt)
        ('[' :: (['a'] ++ ']' :: '(' :: (u ++ ')' ::
          (' ' :: '[' :: (['b'] ++ ']' :: '(' :: (u ++ [')']))))))
        ((['a'] ++ fnref 1) ++ ([' '] ++ ((['b'] ++ fnref 2) ++ [])))
        (⟨2, [(1, String.mk u), (2, String.mk u)]⟩ : HSt) := by
      apply Scans.stepSome (linkMatcher_conv (s := (⟨0, []⟩ : HSt))
        (matchLink_eval (by decide) (by decide) hu hune) (by decide) huL)
      apply scans_skip_seg hsegB
      apply Scans.stepSome (linkMatcher_conv (s := (⟨1, [(1, String.mk u)]⟩ : HSt))
        (matchLink_eval (by decide) (by decide) hu hune) (by decide) huL)
      exact Scans.nil
    have eB1 := pySub_of_scans linkMatcher_consumes hB
    have eB2 : pySub urlMatcher (⟨2, [(1, String.mk u), (2, String.mk u)]⟩ : HSt)
        ((['a'] ++ fnref 1) ++ ([' '] ++ ((['b'] ++ fnref 2) ++ []))) =
        (((['a'] ++ fnref 1) ++ ([' '] ++ ((['b'] ++ fnref 2) ++ []))),
          (⟨2, [(1, String.mk u), (2, String.mk u)]⟩ : HSt)) :=
      pySub_id urlMatcher_consumes (fun _ _ hb => urlMatcher_none hb) (by decide) _
    have houtB : String.mk ((['a'] ++ fnref 1) ++ ([' '] ++ ((['b'] ++ fnref 2) ++ []))) =
        "a[^1] b[^2]" := by decide
    simp only [extract_links_and_convert_to_footnotes, strData_mk, eB1, eB2, houtB]
  · -- (C)
    have aC1 : allNoneB matchWP (' ' :: 'y' :: ' ' :: '(' :: (d ++ [')'])) = true := by
      simp only [allNoneB, Bool.and_eq_true, Option.isNone_iff_eq_none]
      refine ⟨matchWP_none_head (by decide) _, matchWP_none_head (by decide) _,
        matchWP_none_head (by decide) _, matchWP_none_head (by decide) _, ?_⟩
      exact allNoneB_append (fun c hc cs0 => matchWP_none_head (hdnb c hc) cs0) (by decide)
    have hC1 : Scans wpMatcher (⟨[], 0, []⟩ : ESt)
        ('[' :: '[' :: (d ++ ']' :: ']' :: '(' :: (u ++ ')' ::
          (' ' :: 'y' :: ' ' :: '(' :: (d ++ [')'])))))
        (fnref 1 ++ (' ' :: 'y' :: ' ' :: '(' :: (d ++ [')'])))
        (⟨[(String.mk d, 1)], 1, [(1, String.mk u)]⟩ : ESt) := by
      have hid : Scans wpMatcher (⟨[(String.mk d, 1)], 1, [(1, String.mk u)]⟩ : ESt)
          (' ' :: 'y' :: ' ' :: '(' :: (d ++ [')']))
          (' ' :: 'y' :: ' ' :: '(' :: (d ++ [')']))
          (⟨[(String.mk d, 1)], 1, [(1, String.mk u)]⟩ : ESt) :=
        scans_of_allNone (m := wpMatcher) (fun _ _ hb => wpMatcher_none hb) aC1 _
      exact Scans.stepSome (wpMatcher_new (s := (⟨[], 0, []⟩ : ESt))
        (matchWP_eval hdm hdne hu hune) rfl) hid
    have eC1 := pySub_of_scans wpMatcher_consumes hC1
    have hformC : fnref 1 ++ (' ' :: 'y' :: ' ' :: '(' :: (d ++ [')'])) =
        '[' :: '^' :: '1' :: ']' :: (' ' :: 'y' :: ' ' :: '(' :: (d ++ [')'])) := rfl
    have aStd : allNoneB matchStdRef (' ' :: 'y' :: ' ' :: '(' :: (d ++ [')'])) = true := by
      simp only [allNoneB, Bool.and_eq_true, Option.isNone_iff_eq_none]
      refine ⟨matchStdRef_none_head (by decide) _, matchStdRef_none_head (by decide) _,
        matchStdRef_none_head (by decide) _, matchStdRef_none_head (by decide) _, ?_⟩
      exact allNoneB_append (fun c hc cs0 => matchStdRef_none_head (hdnb c hc) cs0) (by decide)
    have fC2 : Finds matchStdRef
        ('[' :: '^' :: '1' :: ']' :: (' ' :: 'y' :: ' ' :: '(' :: (d ++ [')']))) [['1']] := by
      refine Finds.stepSome (matchStdRef_eval (g := ['1'])
        (r := (' ' :: 'y' :: ' ' :: '(' :: (d ++ [')']))) (by decide) (by decide)) ?_
      exact finds_of_allNone aStd
    have eC2 : pyFindAll matchStdRef
        (fnref 1 ++ (' ' :: 'y' :: ' ' :: '(' :: (d ++ [')']))) = [['1']] := by
      rw [hformC]
      exact pyFindAll_of_finds matchStdRef_bconsumes fC2
    have hsegC : ∀ c ∈ ['[', '^', '1', ']', ' ', 'y', ' '], ∀ (st0 : ESt) (cs0 : List Char),
        parenNumMatcher st0 (c :: cs0) = none := by
      intro c hc st0 cs0
      apply parenNumMatcher_none
      apply matchParenNum_none_head ?_ cs0
      simp only [List.mem_cons, List.not_mem_nil, or_false] at hc
      rcases hc with rfl | rfl | rfl | rfl | rfl | rfl | rfl <;> decide
    have hC3 : Scans parenNumMatcher (⟨[(String.mk d, 1)], 1, [(1, String.mk u)]⟩ : ESt)
        (['[', '^', '1', ']', ' ', 'y', ' '] ++ ('(' :: (d ++ [')'])))
        (['[', '^', '1', ']', ' ', 'y', ' '] ++ (fnref 2 ++ []))
        (⟨[(String.mk d, 1),
           (String.mk ('p' :: 'a' :: 'r' :: 'e' :: 'n' :: '_' :: d), 2)], 2,
          [(1, String.mk u)]⟩ : ESt) := by
      apply scans_skip_seg hsegC
      apply Scans.stepSome (parenNumMatcher_new
        (s := (⟨[(String.mk d, 1)], 1, [(1, String.mk u)]⟩ : ESt))
        (matchParenNum_eval hdm hdne) (lookup_single_paren_ne d 1))
      exact Scans.nil
    have eC3 : pySub parenNumMatcher (⟨[(String.mk d, 1)], 1, [(1, String.mk u)]⟩ : ESt)
        (fnref 1 ++ (' ' :: 'y' :: ' ' :: '(' :: (d ++ [')']))) =
        ((['[', '^', '1', ']', ' ', 'y', ' '] ++ (fnref 2 ++ [])),
         (⟨[(String.mk d, 1),
            (String.mk ('p' :: 'a' :: 'r' :: 'e' :: 'n' :: '_' :: d), 2)], 2,
           [(1, String.mk u)]⟩ : ESt)) := by
      rw [hformC]
      exact pySub_of_scans parenNumMatcher_consumes hC3
    have eC4 : pySub parenRomanMatcher
        (⟨[(String.mk d, 1),
           (String.mk ('p' :: 'a' :: 'r' :: 'e' :: 'n' :: '_' :: d), 2)], 2,
          [(1, String.mk u)]⟩ : ESt)
        (['[', '^', '1', ']', ' ', 'y', ' '] ++ (fnref 2 ++ [])) =
        ((['[', '^', '1', ']', ' ', 'y', ' '] ++ (fnref 2 ++ [])),
         (⟨[(String.mk d, 1),
            (String.mk ('p' :: 'a' :: 'r' :: 'e' :: 'n' :: '_' :: d), 2)], 2,
           [(1, String.mk u)]⟩ : ESt)) :=
      pySub_id parenRomanMatcher_consumes (fun _ _ hb => parenRomanMatcher_none hb)
        (by decide) _
    have houtC : String.mk (['[', '^', '1', ']', ' ', 'y', ' '] ++ (fnref 2 ++ [])) =
        "[^1] y [^2]" := by decide
    simp only [extract_existing_footnotes, strData_mk, eC1, eC2, List.foldl_cons,
      List.foldl_nil, addStdRef_one, eC3, eC4, houtC]

/-- C5 witness: the family theorem applied to label `1`, URLs
`http://a`, `http://b` (same label, different URLs) and `http://u`
(repeated identical link URL). -/
theorem C5_dedup_by_reference_key_witness :
    extract_existing_footnotes "[[1]](http://a) x [[1]](http://b)" =
      ("[^1] x [^1]", [("1", 1)], [(1, "http://a")]) ∧
    extract_links_and_convert_to_footnotes "[a](http://u) [b](http://u)" 0 =
      ("a[^1] b[^2]", [(1, "http://u"), (2, "http://u")]) ∧
    extract_existing_footnotes "[[1]](http://u) y (1)" =
      ("[^1] y [^2]", [("1", 1), ("paren_1", 2)], [(1, "http://u")]) := by
  have h := C5_dedup_by_reference_key ['1'] "http://u".data "http://a".data "http://b".data
    (by decide) (by decide) (by decide) (by decide) (by decide)
    (by decide) (by decide) (by decide) (by decide)
  obtain ⟨hA, hB, hC⟩ := h
  refine ⟨?_, ?_, ?_⟩
  · have e1 : String.mk ('[' :: '[' :: (['1'] ++ ']' :: ']' :: '(' ::
        ("http://a".data ++ ')' :: (' ' :: 'x' :: ' ' :: '[' :: '[' ::
          (['1'] ++ ']' :: ']' :: '(' :: ("http://b".data ++ [')'])))))) =
        "[[1]](http://a) x [[1]](http://b)" := by decide
    have e2 : String.mk ['1'] = "1" := by decide
    have e3 : String.mk "http://a".data = "http://a" := by decide
    rw [e1, e2, e3] at hA
    exact hA
  · have e1 : String.mk ('[' :: (['a'] ++ ']' :: '(' :: ("http://u".data ++ ')' ::
        (' ' :: '[' :: (['b'] ++ ']' :: '(' :: ("http://u".data ++ [')'])))))) =
        "[a](http://u) [b](http://u)" := by decide
    have e3 : String.mk "http://u".data = "http://u" := by decide
    rw [e1, e3] at hB
    exact hB
  · have e1 : String.mk ('[' :: '[' :: (['1'] ++ ']' :: ']' :: '(' ::
        ("http://u".data ++ ')' :: (' ' :: 'y' :: ' ' :: '(' :: (['1'] ++ [')']))))) =
        "[[1]](http://u) y (1)" := by decide
    have e2 : String.mk ['1'] = "1" := by decide
    have e3 : String.mk "http://u".data = "http://u" := by decide
    have e4 : String.mk ('p' :: 'a' :: 'r' :: 'e' :: 'n' :: '_' :: ['1']) =
        "paren_1" := by decide
    rw [e1, e2, e3, e4] at hC
    exact hC

/-! ## Harvester guard helpers for C7 -/

theorem matchLink_none_noparen {cs t rest1 : List Char} {b : Char}
    (hspan : spanStop (· != ']') ']' cs = some (t, b :: rest1)) (hb : b ≠ '(') :
    matchLink ('[' :: cs) = none := by
  simp [matchLink, hspan, hb]

theorem matchLink_none_endafter {cs t : List Char}
    (hspan : spanStop (· != ']') ']' cs = some (t, [])) :
    matchLink ('[' :: cs) = none := by
  simp [matchLink, hspan]

/-- C7 amended: the Harvester's idempotence guards, as the code implements
them.  (1) The bare-URL placeholder output `[Link][^n]` is left completely
unchanged by a re-run of the Harvester: neither pass matches anywhere in it,
so no new footnote is wrapped around it.  (2) A link whose text begins with a
caret is left unconverted by the inline-link pass (it is emitted verbatim and
no definition is recorded); only a bare http(s) URL inside its target — absent
here — would still be rewritten by the bare-URL pass. -/
theorem C7_amended_idempotence_guards (ds : List Char)
    (hds : ds.all Char.isDigit = true) (hne : ds ≠ []) (k k2 : Nat) :
    extract_links_and_convert_to_footnotes
        (String.mk ('[' :: 'L' :: 'i' :: 'n' :: 'k' :: ']' :: '[' :: '^' :: (ds ++ [']']))) k =
      (String.mk ('[' :: 'L' :: 'i' :: 'n' :: 'k' :: ']' :: '[' :: '^' :: (ds ++ [']'])),
       []) ∧
    extract_links_and_convert_to_footnotes "[^1](x)" k2 = ("[^1](x)", []) := by
  have hdm : ∀ c ∈ ds, Char.isDigit c = true := fun c hc => List.all_eq_true.mp hds c hc
  have hdnb : ∀ c ∈ ds, c ≠ '[' := fun c hc => (digit_facts (hdm c hc)).1
  have hdnh : ∀ c ∈ ds, c ≠ 'h' := fun c hc => (digit_facts (hdm c hc)).2.2.2.2.1
  have hdbr : ∀ c ∈ ds, (c != ']') = true := fun c hc => by
    have := (digit_facts (hdm c hc)).2.1
    simpa [bne_iff_ne] using this
  constructor
  · -- the placeholder is a fixed point of both passes
    have hsp1 : spanStop (· != ']') ']'
        ('L' :: 'i' :: 'n' :: 'k' :: ']' :: '[' :: '^' :: (ds ++ [']'])) =
        some (['L', 'i', 'n', 'k'], '[' :: '^' :: (ds ++ [']'])) :=
      spanStop_eval ['L', 'i', 'n', 'k'] ('[' :: '^' :: (ds ++ [']']))
        (by decide) (by decide) (by decide)
    have hsp2 : spanStop (· != ']') ']' ('^' :: (ds ++ [']'])) = some ('^' :: ds, []) := by
      have := spanStop_eval (p := (· != ']')) (z := ']') ('^' :: ds) ([] : List Char)
        (by
          intro c hc
          simp only [List.mem_cons] at hc
          rcases hc with rfl | hc
          · decide
          · exact hdbr c hc)
        (by simp) (by decide)
      simpa using this
    have aLink : allNoneB matchLink
        ('[' :: 'L' :: 'i' :: 'n' :: 'k' :: ']' :: '[' :: '^' :: (ds ++ [']'])) = true := by
      simp only [allNoneB, Bool.and_eq_true, Option.isNone_iff_eq_none]
      refine ⟨matchLink_none_noparen hsp1 (by decide),
        matchLink_none_head (by decide) _, matchLink_none_head (by decide) _,
        matchLink_none_head (by decide) _, matchLink_none_head (by decide) _,
        matchLink_none_head (by decide) _,
        matchLink_none_endafter hsp2,
        matchLink_none_head (by decide) _, ?_⟩
      exact allNoneB_append (fun c hc cs0 => matchLink_none_head (hdnb c hc) cs0) (by decide)
    have aUrl : allNoneB matchUrl
        ('[' :: 'L' :: 'i' :: 'n' :: 'k' :: ']' :: '[' :: '^' :: (ds ++ [']'])) = true := by
      simp only [allNoneB, Bool.and_eq_true, Option.isNone_iff_eq_none]
      refine ⟨matchUrl_none_head (by decide) _, matchUrl_none_head (by decide) _,
        matchUrl_none_head (by decide) _, matchUrl_none_head (by decide) _,
        matchUrl_none_head (by decide) _, matchUrl_none_head (by decide) _,
        matchUrl_none_head (by decide) _, matchUrl_none_head (by decide) _, ?_⟩
      exact allNoneB_append (fun c hc cs0 => matchUrl_none_head (hdnh c hc) cs0) (by decide)
    have e1 : pySub linkMatcher (⟨k, []⟩ : HSt)
        ('[' :: 'L' :: 'i' :: 'n' :: 'k' :: ']' :: '[' :: '^' :: (ds ++ [']'])) =
        (('[' :: 'L' :: 'i' :: 'n' :: 'k' :: ']' :: '[' :: '^' :: (ds ++ [']'])),
          (⟨k, []⟩ : HSt)) :=
      pySub_id linkMatcher_consumes (fun _ _ hb => linkMatcher_none hb) aLink _
    have e2 : pySub urlMatcher (⟨k, []⟩ : HSt)
        ('[' :: 'L' :: 'i' :: 'n' :: 'k' :: ']' :: '[' :: '^' :: (ds ++ [']'])) =
        (('[' :: 'L' :: 'i' :: 'n' :: 'k' :: ']' :: '[' :: '^' :: (ds ++ [']'])),
          (⟨k, []⟩ : HSt)) :=
      pySub_id urlMatcher_consumes (fun _ _ hb => urlMatcher_none hb) aUrl _
    simp only [extract_links_and_convert_to_footnotes, strData_mk, e1, e2]
  · -- a caret-text link is emitted verbatim by the link pass
    have hm : matchLink "[^1](x)".data = some (['^', '1'], ['x'], []) := by decide
    have hscan : Scans linkMatcher (⟨k2, []⟩ : HSt) "[^1](x)".data
        (('[' :: ['^', '1'] ++ ']' :: '(' :: ['x'] ++ [')']) ++ [])
        (⟨k2, []⟩ : HSt) := by
      have h0 : "[^1](x)".data =
          '[' :: '^' :: '1' :: ']' :: '(' :: 'x' :: ')' :: [] := by decide
      rw [h0]
      exact Scans.stepSome (linkMatcher_caret (s := (⟨k2, []⟩ : HSt))
        (by rw [← h0]; exact hm) (by decide)) Scans.nil
    have e1 := pySub_of_scans linkMatcher_consumes hscan
    have hout : (('[' :: ['^', '1'] ++ ']' :: '(' :: ['x'] ++ [')']) ++ []) =
        "[^1](x)".data := by decide
    rw [hout] at e1
    have e2 : pySub urlMatcher (⟨k2, []⟩ : HSt) "[^1](x)".data =
        ("[^1](x)".data, (⟨k2, []⟩ : HSt)) :=
      pySub_id urlMatcher_consumes (fun _ _ hb => urlMatcher_none hb) (by decide) _
    simp only [extract_links_and_convert_to_footnotes, e1, e2, strMk_data]

/-- C7 amended witness: the placeholder `[Link][^7]` with the counter at 3,
and the caret link `[^1](x)` with the counter at 0. -/
theorem C7_amended_witness :
    extract_links_and_convert_to_footnotes "[Link][^7]" 3 = ("[Link][^7]", []) ∧
    extract_links_and_convert_to_footnotes "[^1](x)" 0 = ("[^1](x)", []) := by
  have h := C7_amended_idempotence_guards ['7'] (by decide) (by decide) 3 0
  obtain ⟨h1, h2⟩ := h
  refine ⟨?_, h2⟩
  have e1 : String.mk ('[' :: 'L' :: 'i' :: 'n' :: 'k' :: ']' :: '[' :: '^' ::
      (['7'] ++ [']'])) = "[Link][^7]" := by decide
  rw [e1] at h1
  exact h1

/-- C6 amended: the Resolver's per-entry precedence is: canonicalize the URL
by stripping trailing slashes; if the canonical URL is a key of the Corpus
URL Map the entry is internal and rendered as the resolved identifier;
otherwise, if the LOWERCASED FULL URL CONTAINS any allow-list token as a
substring (not a domain match), the entry is academic; otherwise external.
The three concrete conjuncts exercise the rendering end to end, including the
spec's trailing-slash resolution example and the `jstor.org` academic case. -/
theorem C6_amended_classification :
    (∀ (n : Nat) (url f : String) (m : List (String × String)),
      lookupS m (pyRstripSlash url) = some f →
      categorizeAll m [(n, url)] =
        (["[^" ++ Nat.repr n ++ "]: [[" ++ f ++ "]]"], [], [])) ∧
    (∀ (n : Nat) (url : String) (m : List (String × String)),
      lookupS m (pyRstripSlash url) = none → isAcademic url = true →
      categorizeAll m [(n, url)] = ([], ["[^" ++ Nat.repr n ++ "]: " ++ url], [])) ∧
    (∀ (n : Nat) (url : String) (m : List (String × String)),
      lookupS m (pyRstripSlash url) = none → isAcademic url = false →
      categorizeAll m [(n, url)] = ([], [], ["[^" ++ Nat.repr n ++ "]: " ++ url])) ∧
    create_organized_footnotes_section [] [(1, "https://example.com/a/")]
        [("https://example.com/a", "Article A")] =
      "\n## References\n\n### Related Articles\n[^1]: [[Article A]]\n" ∧
    create_organized_footnotes_section [] [(1, "https://www.jstor.org/stable/123")] [] =
      "\n## References\n\n### Academic Sources\n[^1]: https://www.jstor.org/stable/123\n" ∧
    create_organized_footnotes_section [] [(1, "https://plain.org/x")] [] =
      "\n## References\n\n### External Links\n[^1]: https://plain.org/x" := by
  refine ⟨?_, ?_, ?_, by decide, by decide, by decide⟩
  · intro n url f m h
    simp [categorizeAll, h]
  · intro n url m h1 h2
    simp [categorizeAll, h1, h2]
  · intro n url m h1 h2
    simp [categorizeAll, h1, h2]

/-- C6 amended witness: one concrete entry per class, including a
trailing-slash internal resolution and a path-substring academic hit. -/
theorem C6_amended_classification_witness :
    categorizeAll [("https://e.com/a", "A")] [(2, "https://e.com/a/")] =
      (["[^2]: [[A]]"], [], []) ∧
    categorizeAll [] [(3, "https://x.org/the-bible-page")] =
      ([], ["[^3]: https://x.org/the-bible-page"], []) ∧
    categorizeAll [] [(4, "https://plain.org/x")] =
      ([], [], ["[^4]: https://plain.org/x"]) := by
  obtain ⟨hI, hA, hE, -, -, -⟩ := C6_amended_classification
  refine ⟨?_, ?_, ?_⟩
  · have h := hI 2 "https://e.com/a/" "A" [("https://e.com/a", "A")] (by decide)
    have e : ("[^" ++ Nat.repr 2 ++ "]: [[" ++ "A" ++ "]]" : String) = "[^2]: [[A]]" := by
      decide
    rw [e] at h
    exact h
  · have h := hA 3 "https://x.org/the-bible-page" [] (by decide) (by decide)
    have e : ("[^" ++ Nat.repr 3 ++ "]: " ++ "https://x.org/the-bible-page" : String) =
        "[^3]: https://x.org/the-bible-page" := by decide
    rw [e] at h
    exact h
  · have h := hE 4 "https://plain.org/x" [] (by decide) (by decide)
    have e : ("[^" ++ Nat.repr 4 ++ "]: " ++ "https://plain.org/x" : String) =
        "[^4]: https://plain.org/x" := by decide
    rw [e] at h
    exact h

/-- C10: two posts whose titles sanitize to the same string get the SAME
document identifier in the Corpus URL Map (no collision disambiguation when
the map is built), while the file-writing step disambiguates the second
SAVED filename with the numeric suffix ` (1)` — so the two posts' files
differ but internal cross-links to either resolve to one identifier. -/
theorem C10_corpus_map_collision (p1 p2 : Post)
    (htitle : clean_title_for_filename p1.title = clean_title_for_filename p2.title)
    (hurl : pyRstripSlash p1.URL ≠ pyRstripSlash p2.URL) :
    lookupS (build_url_to_filename_map [p1, p2]) (pyRstripSlash p1.URL) =
      some (clean_title_for_filename p1.title) ∧
    lookupS (build_url_to_filename_map [p1, p2]) (pyRstripSlash p2.URL) =
      some (clean_title_for_filename p1.title) ∧
    gen_unique_filename [] (clean_title_for_filename p1.title) =
      clean_title_for_filename p1.title ++ ".md" ∧
    gen_unique_filename [clean_title_for_filename p1.title ++ ".md"]
        (clean_title_for_filename p2.title) =
      clean_title_for_filename p1.title ++ " (1).md" ∧
    clean_title_for_filename p1.title ++ ".md" ≠
      clean_title_for_filename p1.title ++ " (1).md" := by
  have hk : (pyRstripSlash p1.URL == pyRstripSlash p2.URL) = false :=
    beq_eq_false_iff_ne.mpr hurl
  have hmap : build_url_to_filename_map [p1, p2] =
      [(pyRstripSlash p1.URL, clean_title_for_filename p1.title),
       (pyRstripSlash p2.URL, clean_title_for_filename p1.title)] := by
    simp [build_url_to_filename_map, dictInsertS, hk, ← htitle]
  have hneq : ∀ b : String, b ++ " (" ++ Nat.repr 1 ++ ").md" ≠ b ++ ".md" := by
    intro b hcontra
    have h2 := congrArg String.data hcontra
    simp only [String.data_append, List.append_assoc] at h2
    have h3 := List.append_cancel_left h2
    exact absurd h3 (by decide)
  have hcand : ∀ b : String, b ++ " (" ++ Nat.repr 1 ++ ").md" = b ++ " (1).md" := by
    intro b
    apply String.ext
    simp only [String.data_append, List.append_assoc]
    exact congrArg (fun x => b.data ++ x) (by decide)
  refine ⟨?_, ?_, ?_, ?_, ?_⟩
  · rw [hmap]
    simp [lookupS]
  · rw [hmap]
    simp [lookupS, hurl]
  · simp [gen_unique_filename, strElem]
  · rw [← htitle]
    have hc1 : strElem (clean_title_for_filename p1.title ++ ".md")
        [clean_title_for_filename p1.title ++ ".md"] = true := by
      simp [strElem]
    have hc2 : strElem (clean_title_for_filename p1.title ++ " (" ++ Nat.repr 1 ++ ").md")
        [clean_title_for_filename p1.title ++ ".md"] = false := by
      simp only [strElem, Bool.or_false]
      exact beq_eq_false_iff_ne.mpr (hneq _)
    simp only [gen_unique_filename, List.length_cons, List.length_nil, hc1, if_true,
      uniqueFilenameLoop, hc2, if_false]
    exact hcand _
  · intro hcontra
    have h2 := congrArg String.data hcontra
    simp only [String.data_append, List.append_assoc] at h2
    have h3 := List.append_cancel_left h2
    exact absurd h3 (by decide)

/-- C10 witness: two posts titled `My Post?` and `My Post*` (both sanitize to
`My Post`) with distinct URLs: one shared map identifier, two distinct saved
filenames. -/
theorem C10_corpus_map_collision_witness :
    clean_title_for_filename "My Post?" = clean_title_for_filename "My Post*" ∧
    pyRstripSlash "https://b.com/p1/" ≠ pyRstripSlash "https://b.com/p2/" ∧
    lookupS (build_url_to_filename_map
        [⟨"https://b.com/p1/", "My Post?"⟩, ⟨"https://b.com/p2/", "My Post*"⟩])
      "https://b.com/p1" = some "My Post" ∧
    lookupS (build_url_to_filename_map
        [⟨"https://b.com/p1/", "My Post?"⟩, ⟨"https://b.com/p2/", "My Post*"⟩])
      "https://b.com/p2" = some "My Post" ∧
    gen_unique_filename ["My Post.md"] "My Post" = "My Post (1).md" := by
  have h := C10_corpus_map_collision ⟨"https://b.com/p1/", "My Post?"⟩
      ⟨"https://b.com/p2/", "My Post*"⟩ (by decide) (by decide)
  obtain ⟨h1, h2, h3, h4, h5⟩ := h
  have ec : clean_title_for_filename "My Post?" = "My Post" := by decide
  have ec2 : clean_title_for_filename "My Post*" = "My Post" := by decide
  have eu1 : pyRstripSlash "https://b.com/p1/" = "https://b.com/p1" := by decide
  have eu2 : pyRstripSlash "https://b.com/p2/" = "https://b.com/p2" := by decide
  have em1 : ("My Post" ++ ".md" : String) = "My Post.md" := by decide
  have em2 : ("My Post" ++ " (1).md" : String) = "My Post (1).md" := by decide
  refine ⟨by decide, by decide, ?_, ?_, ?_⟩
  · rw [eu1, ec] at h1
    exact h1
  · rw [eu2, ec] at h2
    exact h2
  · rw [ec, ec2, em1, em2] at h4
    exact h4

end WPScrape
